import Mathlib

set_option linter.unnecessarySeqFocus false

/-!
# Event-to-Intelligence Pipeline — verification development

Shallow embedding of the project-intelligence pipeline: the severity
classifier, the blocker store, the Conflict Engine, the Feature Engine,
the Health Engine and the webhook ingestor, together with proofs of the
behavioural properties claimed for them.

Conventions of the embedding:
* timestamps are integers counted in hours (`7 days` = `168` hours);
* SQL numeric arithmetic (the health formula) is modelled exactly over `ℚ`,
  with JavaScript `Math.round x` modelled as `⌊x + 1/2⌋`;
* each relational table is a list of rows; primary-key uniqueness, where a
  proof needs it, appears as an explicit hypothesis;
* queries are functions of the table lists they read; state-changing
  operations are functions `DB → DB`.
-/

/-- Severity of a blocker (`LOW`/`MEDIUM`/`HIGH`). -/
inductive Severity where
  | LOW
  | MEDIUM
  | HIGH
deriving DecidableEq, Repr

/-- Discriminator of the `blockers.type` column. -/
inductive BlockerType where
  | FILE_CONFLICT_RISK
  | DEPENDENCY_BLOCK
  | INACTIVITY
  | ALIGNMENT_DRIFT
deriving DecidableEq, Repr

/-- Feature status (`ACTIVE`/`BLOCKED`/`COMPLETE`). -/
inductive FeatureStatus where
  | ACTIVE
  | BLOCKED
  | COMPLETE
deriving DecidableEq, Repr

/-- Pull-request status. -/
inductive PRStatus where
  | open
  | merged
  | closed
deriving DecidableEq, Repr

/-- Risk tier derived from the health score. -/
inductive RiskLevel where
  | HEALTHY
  | WARNING
  | CRITICAL
deriving DecidableEq, Repr

/-- Conflict signals per file, as assembled by the Conflict Engine
(`{ branchCount, branches, touchesMain, prCount, prNumbers }`). -/
structure Signals where
  branchCount : Nat
  branches : List String
  touchesMain : Bool
  prCount : Nat
  prNumbers : List Int
deriving DecidableEq, Repr

/-- `classifySeverity` from `engines/severityClassifier`: first-match-wins
precedence over the conflict signals of a single file. -/
def classifySeverity (s : Signals) : Severity :=
  if s.prCount ≥ 2 then .HIGH
  else if s.touchesMain then .HIGH
  else if s.branchCount ≥ 3 then .HIGH
  else if s.branchCount ≥ 2 then .MEDIUM
  else .LOW

/-- Convenience constructor for signal records in concrete statements. -/
def mkSignals (branchCount prCount : Nat) (touchesMain : Bool) : Signals :=
  { branchCount := branchCount, branches := [], touchesMain := touchesMain,
    prCount := prCount, prNumbers := [] }

/-! ## Relational data model (tables of `db/schema.sql` read by the pipeline) -/

/-- A `workspaces` row (the columns the pipeline reads and writes). -/
structure Workspace where
  id : String
  githubRepoId : Int
  activityWindowHours : Int
  healthScore : Int
deriving DecidableEq, Repr

/-- A `users` row (workspace member). -/
structure User where
  id : String
  workspaceId : String
  githubUsername : String
  userUid : String
deriving DecidableEq, Repr

/-- A `features` row. -/
structure Feature where
  id : String
  workspaceId : String
  name : String
  status : FeatureStatus
  completionPercentage : Int
deriving DecidableEq, Repr

/-- A `feature_dependencies` row (directed edge `feature → depends_on`). -/
structure FeatureDependency where
  featureId : String
  dependsOnFeatureId : String
deriving DecidableEq, Repr

/-- A `file_activity` row; `updatedAt` is a timestamp in hours. -/
structure FileActivity where
  workspaceId : String
  branchName : String
  filePath : String
  lastCommitHash : String
  updatedAt : Int
deriving DecidableEq, Repr

/-- A `blockers` row; `id` plays the role of the primary key. -/
structure Blocker where
  id : Nat
  workspaceId : String
  type : BlockerType
  referenceId : String
  description : String
  severity : Severity
  resolved : Bool
deriving DecidableEq, Repr

/-- A `pull_requests` row. -/
structure PullRequest where
  id : String
  workspaceId : String
  prNumber : Int
  sourceBranch : String
  targetBranch : String
  status : PRStatus
deriving DecidableEq, Repr

/-- A `pr_files` row (membership of a file path in a PR). -/
structure PRFile where
  prId : String
  filePath : String
deriving DecidableEq, Repr

/-- A `webhook_deliveries` row (idempotency log keyed by the delivery id). -/
structure WebhookDelivery where
  deliveryId : String
  repoId : Int
  branchName : String
  commitHash : String
  durationMs : Option Int
  processedAt : Int
deriving DecidableEq, Repr

/-- The database state: one list per table, plus the supply of fresh
blocker primary keys (`gen_random_uuid()` in the schema). -/
structure DB where
  workspaces : List Workspace
  users : List User
  features : List Feature
  featureDeps : List FeatureDependency
  fileActivity : List FileActivity
  blockers : List Blocker
  pullRequests : List PullRequest
  prFiles : List PRFile
  deliveries : List WebhookDelivery
  nextBlockerId : Nat
deriving DecidableEq, Repr

/-! ## Shared list helpers -/

/-- Deduplication keeping the first occurrence, as a JavaScript `Set` and
`ARRAY_AGG(DISTINCT …)` do. -/
def firstDedup {α : Type} [BEq α] (l : List α) : List α :=
  l.foldl (fun acc x => if acc.contains x then acc else acc ++ [x]) []

/-- Case-insensitive substring test, the semantics of
`branch_name ILIKE '%' || username || '%'` for a wildcard-free username. -/
def containsCI (hay needle : String) : Bool :=
  let h := hay.toList.map Char.toLower
  let n := needle.toList.map Char.toLower
  (List.range (h.length + 1)).any (fun i => (h.drop i).take n.length == n)

/-- First index at which `pat` occurs in `hay`, if any. -/
def firstMatchIdx (hay pat : List Char) : Option Nat :=
  (List.range (hay.length + 1)).find? (fun i => (hay.drop i).take pat.length == pat)

/-- JavaScript `String.prototype.replace` with a plain-string pattern:
replace the first occurrence only. -/
def replaceFirst (s pat rep : String) : String :=
  match firstMatchIdx s.toList pat.toList with
  | none => s
  | some i => String.mk (s.toList.take i ++ rep.toList ++ s.toList.drop (i + pat.toList.length))

/-! ## Blocker store (`engines/blockerService`) -/

/-- The trunk branch set `{'main','master'}`. -/
def isTrunk (b : String) : Bool := b == "main" || b == "master"

/-- Row predicate of an *active* blocker for a given
`(workspace, type, referenceId)` key. -/
def activeKey (wsId : String) (t : BlockerType) (ref : String) (b : Blocker) : Bool :=
  b.workspaceId == wsId && b.type == t && b.referenceId == ref && b.resolved == false

/-- `SELECT … WHERE … resolved = false LIMIT 1` over the blockers table. -/
def findActiveBlocker (bs : List Blocker) (wsId : String) (t : BlockerType) (ref : String) :
    Option Blocker :=
  bs.find? (activeKey wsId t ref)

/-- `upsertConflictBlocker`: no active blocker → INSERT; active blocker with
equal severity → no-op; otherwise UPDATE severity and description by id. -/
def upsertConflictBlocker (db : DB) (wsId filePath : String) (severity : Severity)
    (description : String) : DB :=
  match findActiveBlocker db.blockers wsId .FILE_CONFLICT_RISK filePath with
  | some cur =>
      if cur.severity ≠ severity then
        { db with blockers := db.blockers.map (fun b =>
            if b.id == cur.id then { b with severity := severity, description := description }
            else b) }
      else db
  | none =>
      { db with
          blockers := db.blockers ++
            [{ id := db.nextBlockerId, workspaceId := wsId, type := .FILE_CONFLICT_RISK,
               referenceId := filePath, description := description, severity := severity,
               resolved := false }],
          nextBlockerId := db.nextBlockerId + 1 }

/-- The `file_activity` rows satisfying the shared WHERE clause of the
branch-overlap grouping: workspace match, non-trunk branch, inside the
sliding window (`updated_at > NOW() - windowHours`). -/
def recentConflictRows (fas : List FileActivity) (wsId : String) (now window : Int) :
    List FileActivity :=
  fas.filter (fun fa =>
    fa.workspaceId == wsId && !isTrunk fa.branchName && fa.updatedAt > now - window)

/-- Distinct non-trunk branches recently active on file `p`
(`COUNT(DISTINCT branch_name)` of one `GROUP BY file_path` group). -/
def recentNonTrunkBranches (fas : List FileActivity) (wsId : String) (now window : Int)
    (p : String) : List String :=
  firstDedup (((recentConflictRows fas wsId now window).filter
    (fun fa => fa.filePath == p)).map (fun fa => fa.branchName))

/-- The `pr_files ⋈ pull_requests` join restricted to the workspace's open
PRs, shared by `PR_OVERLAP_QUERY` and the stale-resolution subquery. -/
def openPRJoin (prs : List PullRequest) (pfs : List PRFile) (wsId : String) :
    List (String × PullRequest) :=
  pfs.filterMap (fun pf =>
    match prs.find? (fun pr =>
        pr.id == pf.prId && pr.workspaceId == wsId && pr.status == .open) with
    | some pr => some (pf.filePath, pr)
    | none => none)

/-- Distinct open PR ids listing file `p` (`COUNT(DISTINCT pr.id)` of one
`GROUP BY file_path` group). -/
def openPRIdsForFile (prs : List PullRequest) (pfs : List PRFile) (wsId p : String) :
    List String :=
  firstDedup (((openPRJoin prs pfs wsId).filter (fun j => j.1 == p)).map (fun j => j.2.id))

/-- Membership in the current conflict set: ≥ 2 distinct non-trunk branches
within the window, or ≥ 2 distinct open PRs, on the same file. -/
def inConflictSet (fas : List FileActivity) (prs : List PullRequest) (pfs : List PRFile)
    (wsId : String) (now window : Int) (p : String) : Bool :=
  (recentNonTrunkBranches fas wsId now window p).length ≥ 2 ||
    (openPRIdsForFile prs pfs wsId p).length ≥ 2

/-- `resolveStaleBlockers`: one set-based UPDATE marking `resolved = true` on
every active FILE_CONFLICT_RISK blocker of the workspace whose `referenceId`
is no longer in the conflict set. -/
def resolveStaleBlockers (db : DB) (wsId : String) (now window : Int) : DB :=
  { db with blockers := db.blockers.map (fun b =>
      if b.workspaceId == wsId && b.type == .FILE_CONFLICT_RISK && b.resolved == false &&
          !inConflictSet db.fileActivity db.pullRequests db.prFiles wsId now window b.referenceId
      then { b with resolved := true }
      else b) }

/-- `buildDescription`: the human-readable blocker description. -/
def buildDescription (filePath : String) (s : Signals) : String :=
  let parts : List String :=
    (if s.branchCount > 1 then
      [toString s.branchCount ++ " branches (" ++ String.intercalate ", " s.branches ++ ")"]
     else []) ++
    (if s.prCount > 1 then
      [toString s.prCount ++ " open PRs (#" ++
        String.intercalate ", #" (s.prNumbers.map toString) ++ ")"]
     else []) ++
    (if s.touchesMain then ["includes main"] else [])
  "Conflict risk on " ++ filePath ++ ": " ++ String.intercalate " · " parts

/-! ## Conflict Engine (`engines/conflictEngine`) -/

/-- One result row of `BRANCH_OVERLAP_QUERY`. -/
structure BranchOverlapRow where
  filePath : String
  branchCount : Nat
  branches : List String
  touchesMain : Bool
deriving DecidableEq, Repr

/-- One result row of `PR_OVERLAP_QUERY`. -/
structure PROverlapRow where
  filePath : String
  prCount : Nat
  prNumbers : List Int
deriving DecidableEq, Repr

/-- `BRANCH_OVERLAP_QUERY`: group the workspace's `file_activity` rows —
excluding trunk branches and rows outside the window — by `file_path`; keep
groups with ≥ 2 distinct branches; `touches_main` is `BOOL_OR(branch IN
('main','master'))` over the same (already filtered) grouped rows. -/
def branchOverlapQuery (fas : List FileActivity) (wsId : String) (now window : Int) :
    List BranchOverlapRow :=
  let rows := recentConflictRows fas wsId now window
  let paths := firstDedup (rows.map (fun fa => fa.filePath))
  (paths.map (fun p =>
    let branches := recentNonTrunkBranches fas wsId now window p
    { filePath := p, branchCount := branches.length, branches := branches,
      touchesMain := (rows.filter (fun fa => fa.filePath == p)).any
        (fun fa => isTrunk fa.branchName) })).filter
    (fun r => r.branchCount > 1)

/-- `PR_OVERLAP_QUERY`: group `pr_files` joined to the workspace's open
`pull_requests` by `file_path`; keep groups with ≥ 2 distinct PRs. -/
def prOverlapQuery (prs : List PullRequest) (pfs : List PRFile) (wsId : String) :
    List PROverlapRow :=
  let joined := openPRJoin prs pfs wsId
  let paths := firstDedup (joined.map (fun j => j.1))
  (paths.map (fun p =>
    { filePath := p, prCount := (openPRIdsForFile prs pfs wsId p).length,
      prNumbers := firstDedup ((joined.filter (fun j => j.1 == p)).map
        (fun j => j.2.prNumber)) })).filter
    (fun r => r.prCount > 1)

/-- JavaScript `Map.set` over an association list: an existing key keeps its
position and gets the new value; a fresh key is appended. -/
def mapSet (m : List (String × Signals)) (k : String) (v : Signals) :
    List (String × Signals) :=
  if m.any (fun e => e.1 == k) then m.map (fun e => if e.1 == k then (k, v) else e)
  else m ++ [(k, v)]

/-- JavaScript `Map.get`. -/
def mapGet (m : List (String × Signals)) (k : String) : Option Signals :=
  (m.find? (fun e => e.1 == k)).map (fun e => e.2)

/-- The signals a branch-overlap row contributes (`prCount := 0`). -/
def branchRowSignals (r : BranchOverlapRow) : Signals :=
  { branchCount := r.branchCount, branches := r.branches, touchesMain := r.touchesMain,
    prCount := 0, prNumbers := [] }

/-- The merged signals after a PR-overlap row: the existing entry (or the
zero default) with `prCount`/`prNumbers` overridden. -/
def prMergeSignals (m : List (String × Signals)) (r : PROverlapRow) : Signals :=
  { (mapGet m r.filePath).getD
      { branchCount := 0, branches := [], touchesMain := false, prCount := 0,
        prNumbers := [] } with
    prCount := r.prCount, prNumbers := r.prNumbers }

/-- Step 3 of the engine: merge branch-overlap and PR-overlap signals per
file into one map, taking zeros/empties where a side is absent. -/
def conflictMap (branchRows : List BranchOverlapRow) (prRows : List PROverlapRow) :
    List (String × Signals) :=
  let m1 := branchRows.foldl (fun m r => mapSet m r.filePath (branchRowSignals r)) []
  prRows.foldl (fun m r => mapSet m r.filePath (prMergeSignals m r)) m1

/-- Domain events put on the WebSocket bus after commit. -/
inductive Event where
  | conflictWarning (wsId file : String) (branches : List String) (severity : Severity)
  | blockerCreated (wsId featureId featureName : String) (blockedBy : List String)
  | healthUpdate (wsId : String) (score : Int) (riskLevel : RiskLevel)
deriving DecidableEq, Repr

/-- The workspace's configured `activity_window_hours` (default 72). -/
def workspaceWindow (db : DB) (wsId : String) : Int :=
  match db.workspaces.find? (fun w => w.id == wsId) with
  | some w => w.activityWindowHours
  | none => 72

/-- Step 4 of the engine: classify and upsert one blocker per merged entry. -/
def upsertAll (db : DB) (wsId : String) (entries : List (String × Signals)) : DB :=
  entries.foldl (fun d e =>
    upsertConflictBlocker d wsId e.1 (classifySeverity e.2) (buildDescription e.1 e.2)) db

/-- `runConflictEngine(workspaceId, modifiedFiles, triggerBranch)`: exit when
`modifiedFiles` is empty; otherwise detect branch and PR overlaps, merge,
classify and upsert blockers, resolve stale blockers, commit, then broadcast
one `CONFLICT_WARNING` per merged entry. -/
def runConflictEngine (db : DB) (wsId : String) (modifiedFiles : List String) (now : Int) :
    DB × List Event :=
  if modifiedFiles.isEmpty then (db, [])
  else
    let window := workspaceWindow db wsId
    let branchRows := branchOverlapQuery db.fileActivity wsId now window
    let prRows := prOverlapQuery db.pullRequests db.prFiles wsId
    let cmap := conflictMap branchRows prRows
    let db1 := upsertAll db wsId cmap
    let db2 := resolveStaleBlockers db1 wsId now window
    (db2, cmap.map (fun e =>
      .conflictWarning wsId e.1 e.2.branches (classifySeverity e.2)))

/-! ## Health Engine (`engines/healthEngine`) -/

/-- JavaScript `Math.round`: round half toward positive infinity. -/
def jsRound (x : Rat) : Int := ⌊x + 1/2⌋

/-- `COALESCE(AVG(completion_percentage), 0)` over the workspace's features. -/
def featureCompletionAvg (features : List Feature) (wsId : String) : Rat :=
  let fs := features.filter (fun f => f.workspaceId == wsId)
  if fs.isEmpty then 0
  else ((fs.map (fun f => f.completionPercentage)).foldl (· + ·) 0 : Int) / (fs.length : Rat)

/-- Unresolved blocker counts of the workspace: `(total, FILE_CONFLICT_RISK)`. -/
def getBlockerCounts (bs : List Blocker) (wsId : String) : Nat × Nat :=
  let active := bs.filter (fun b => b.workspaceId == wsId && b.resolved == false)
  (active.length, (active.filter (fun b => b.type == .FILE_CONFLICT_RISK)).length)

/-- Members with no `file_activity` row of the workspace in the last 7 days
(168 hours) whose branch name contains the username case-insensitively. -/
def inactiveMembers (users : List User) (fas : List FileActivity) (wsId : String)
    (now : Int) : List User :=
  users.filter (fun u => u.workspaceId == wsId &&
    !(fas.any (fun fa => fa.workspaceId == wsId && fa.updatedAt ≥ now - 168 &&
        containsCI fa.branchName u.githubUsername)))

/-- `_getInactiveMemberCount` of the Health Engine. -/
def getInactiveMemberCount (db : DB) (wsId : String) (now : Int) : Nat :=
  (inactiveMembers db.users db.fileActivity wsId now).length

/-- `recalculate(workspaceId)`: raw = 0.4·avg − 5·total − 3·conflict −
5·inactive; score = `Math.min(100, Math.max(0, Math.round(raw)))`; risk tier
`≥80 → HEALTHY`, `≥50 → WARNING`, else `CRITICAL`; persist the score and
broadcast `HEALTH_UPDATE`. -/
def recalculate (db : DB) (wsId : String) (now : Int) : DB × List Event :=
  let featureAvg := featureCompletionAvg db.features wsId
  let counts := getBlockerCounts db.blockers wsId
  let inactive := getInactiveMemberCount db wsId now
  let raw : Rat := featureAvg * (2/5) - (counts.1 : Rat) * 5 - (counts.2 : Rat) * 3 -
    (inactive : Rat) * 5
  let score : Int := min 100 (max 0 (jsRound raw))
  let risk : RiskLevel := if score ≥ 80 then .HEALTHY else if score ≥ 50 then .WARNING
    else .CRITICAL
  ({ db with workspaces := db.workspaces.map (fun w =>
      if w.id == wsId then { w with healthScore := score } else w) },
   [.healthUpdate wsId score risk])

/-! ## Feature Engine (`engines/featureEngine`) -/

/-- The feature's incomplete upstream dependencies: `feature_dependencies`
rows joined to `features` with `status != 'COMPLETE'`. -/
def incompleteDeps (db : DB) (fid : String) : List Feature :=
  (db.featureDeps.filter (fun fd => fd.featureId == fid)).flatMap (fun fd =>
    db.features.filter (fun f2 =>
      f2.id == fd.dependsOnFeatureId && !(f2.status == .COMPLETE)))

/-- `UPDATE features SET status = … WHERE id = …`. -/
def updateFeatureStatus (db : DB) (fid : String) (st : FeatureStatus) : DB :=
  { db with features := db.features.map (fun f =>
      if f.id == fid then { f with status := st } else f) }

/-- `UPDATE features SET completion_percentage = … WHERE id = …`. -/
def setFeatureCompletion (db : DB) (fid : String) (pct : Int) : DB :=
  { db with features := db.features.map (fun f =>
      if f.id == fid then { f with completionPercentage := pct } else f) }

/-- The Feature Engine's `INSERT … ON CONFLICT (workspace_id, type,
reference_id) WHERE resolved = false DO NOTHING` for a DEPENDENCY_BLOCK
blocker (severity fixed at HIGH). -/
def insertDependencyBlockerIfAbsent (db : DB) (wsId fid description : String) : DB :=
  match findActiveBlocker db.blockers wsId .DEPENDENCY_BLOCK fid with
  | some _ => db
  | none =>
      { db with
          blockers := db.blockers ++
            [{ id := db.nextBlockerId, workspaceId := wsId, type := .DEPENDENCY_BLOCK,
               referenceId := fid, description := description, severity := .HIGH,
               resolved := false }],
          nextBlockerId := db.nextBlockerId + 1 }

/-- `UPDATE blockers SET resolved = true WHERE workspace_id = … AND
type = 'DEPENDENCY_BLOCK' AND reference_id = …`. -/
def resolveDependencyBlockers (db : DB) (wsId fid : String) : DB :=
  { db with blockers := db.blockers.map (fun b =>
      if b.workspaceId == wsId && b.type == .DEPENDENCY_BLOCK && b.referenceId == fid
      then { b with resolved := true } else b) }

/-- The loop body of `runFeatureEngine` for one snapshot feature: block on
incomplete dependencies (and upsert a DEPENDENCY_BLOCK blocker, broadcasting
`BLOCKER_CREATED`), unblock a BLOCKED feature whose dependencies are all
complete (resolving its blocker), then bump completion by 5 capped at 95. -/
def featureStep (wsId : String) (db : DB) (feature : Feature) : DB × List Event :=
  let deps := incompleteDeps db feature.id
  let step :=
    if deps.length > 0 then
      let blockingNames := String.intercalate ", " (deps.map (fun r => r.name))
      let db' := updateFeatureStatus db feature.id .BLOCKED
      let db'' := insertDependencyBlockerIfAbsent db' wsId feature.id
        ("Feature \"" ++ feature.name ++ "\" blocked by: " ++ blockingNames)
      (db'', [Event.blockerCreated wsId feature.id feature.name
        (deps.map (fun r => r.name))])
    else if feature.status == .BLOCKED then
      (resolveDependencyBlockers (updateFeatureStatus db feature.id .ACTIVE) wsId feature.id,
       ([] : List Event))
    else (db, [])
  let newPct := min 95 (feature.completionPercentage + 5)
  (setFeatureCompletion step.1 feature.id newPct, step.2)

/-- The Feature Engine's loop over the snapshot of non-COMPLETE features. -/
def processFeatures (wsId : String) (db : DB) : List Feature → DB × List Event
  | [] => (db, [])
  | f :: rest =>
      let r1 := featureStep wsId db f
      let r2 := processFeatures wsId r1.1 rest
      (r2.1, r1.2 ++ r2.2)

/-- The snapshot query of `runFeatureEngine`: the workspace's features with
`status != 'COMPLETE'`. -/
def featureSnapshot (db : DB) (wsId : String) : List Feature :=
  db.features.filter (fun f => f.workspaceId == wsId && !(f.status == .COMPLETE))

/-- `runFeatureEngine(workspaceId, modifiedFiles, commitHash)`: exit when
`modifiedFiles` is empty; otherwise process every non-COMPLETE feature of
the workspace, then invoke the Health Engine. -/
def runFeatureEngine (db : DB) (wsId : String) (modifiedFiles : List String) (now : Int) :
    DB × List Event :=
  if modifiedFiles.isEmpty then (db, [])
  else
    let r := processFeatures wsId db (featureSnapshot db wsId)
    let h := recalculate r.1 wsId now
    (h.1, r.2 ++ h.2)

/-! ## Webhook ingestor (`routes/webhook`, `POST /webhook/github`) -/

/-- The 40-zero SHA marking branch creation/deletion endpoints. -/
def ZERO_SHA : String := "0000000000000000000000000000000000000000"

/-- One commit descriptor of the push payload. -/
structure Commit where
  added : List String
  modified : List String
  removed : List String
deriving DecidableEq, Repr

/-- The push payload fields the handler reads; absent/falsy string fields are
modelled as `""` and a falsy `repository.id` as `0`. -/
structure PushPayload where
  ref : String
  before : String
  after : String
  commits : List Commit
  headCommit : Option Commit
  repoId : Int
  repoFullName : String
deriving DecidableEq, Repr

/-- An incoming webhook request: headers (absent → `none`), parsed body, and
the outcome of HMAC signature verification (abstracted to a boolean). -/
structure WebhookRequest where
  eventType : Option String
  deliveryId : Option String
  signatureValid : Bool
  payload : Option PushPayload
deriving DecidableEq, Repr

/-- The response statuses of the webhook route. -/
inductive WebhookStatus where
  | missingHeaders
  | ignored (event : String)
  | invalidSignature
  | invalidPayload
  | duplicate (deliveryId : String)
  | workspaceNotFound (repoId : Int)
  | branchDeleted (branch : String)
  | processing (deliveryId : String)
deriving DecidableEq, Repr

/-- Outcome of the pre-transaction gates (headers, event filter, signature,
payload validation). -/
inductive GateOutcome where
  | reject (httpStatus : Nat) (status : WebhookStatus)
  | accept (deliveryId : String) (p : PushPayload)
deriving DecidableEq, Repr

/-- Steps 1–4 of the handler: header gate, push-only filter, signature
verification, payload validation. -/
def gate (req : WebhookRequest) : GateOutcome :=
  match req.eventType, req.deliveryId with
  | none, _ => .reject 400 .missingHeaders
  | _, none => .reject 400 .missingHeaders
  | some et, some did =>
    if et == "" || did == "" then .reject 400 .missingHeaders
    else if !(et == "push") then .reject 200 (.ignored et)
    else if !req.signatureValid then .reject 401 .invalidSignature
    else match req.payload with
      | none => .reject 400 .invalidPayload
      | some p =>
        if p.ref == "" || p.after == "" || p.repoId == 0 || p.repoFullName == ""
        then .reject 400 .invalidPayload
        else .accept did p

/-- Has the delivery id already been logged? (`INSERT … ON CONFLICT
(delivery_id) DO NOTHING` returning zero rows). -/
def deliveryExists (ds : List WebhookDelivery) (did : String) : Bool :=
  ds.any (fun d => d.deliveryId == did)

/-- File extraction (step 5d): the union of `added ∪ modified ∪ removed`
across the push's commits, or across the head commit on a force push. -/
def extractFiles (p : PushPayload) : List String :=
  let isNewBranch := p.before == ZERO_SHA
  let isDeletedBranch := p.after == ZERO_SHA
  let isEmpty := p.commits.isEmpty
  if !isEmpty then
    firstDedup (p.commits.flatMap (fun c => c.added ++ c.modified ++ c.removed))
  else if !isNewBranch && !isDeletedBranch && isEmpty then
    match p.headCommit with
    | some hc => firstDedup (hc.added ++ hc.modified ++ hc.removed)
    | none => []
  else []

/-- One `INSERT … ON CONFLICT (workspace_id, branch_name, file_path) DO
UPDATE` row of the batch `file_activity` upsert. -/
def upsertOneFileActivity (db : DB) (wsId branch path hash : String) (now : Int) : DB :=
  if db.fileActivity.any (fun fa =>
      fa.workspaceId == wsId && fa.branchName == branch && fa.filePath == path) then
    { db with fileActivity := db.fileActivity.map (fun fa =>
        if fa.workspaceId == wsId && fa.branchName == branch && fa.filePath == path
        then { fa with lastCommitHash := hash, updatedAt := now } else fa) }
  else
    { db with fileActivity := db.fileActivity ++
        [{ workspaceId := wsId, branchName := branch, filePath := path,
           lastCommitHash := hash, updatedAt := now }] }

/-- Result of the webhook route: HTTP status, body status, committed database
state, and whether the engine chain was dispatched after the ACK. -/
structure WebhookResult where
  httpStatus : Nat
  status : WebhookStatus
  db : DB
  dispatched : Bool
deriving DecidableEq, Repr

/-- The `POST /webhook/github` handler: gates, idempotency insert, workspace
resolution, push classification, file-activity upsert, duration update,
commit, ACK, and asynchronous engine dispatch. `dur` is the measured
processing duration recorded on the delivery-log row. -/
def handleWebhook (db : DB) (req : WebhookRequest) (now dur : Int) : WebhookResult :=
  match gate req with
  | .reject h s => ⟨h, s, db, false⟩
  | .accept did p =>
    let branch := replaceFirst p.ref "refs/heads/" ""
    if deliveryExists db.deliveries did then ⟨200, .duplicate did, db, false⟩
    else
      let db1 : DB := { db with deliveries := db.deliveries ++
        [{ deliveryId := did, repoId := p.repoId, branchName := branch,
           commitHash := p.after, durationMs := none, processedAt := now }] }
      match db1.workspaces.find? (fun w => w.githubRepoId == p.repoId) with
      | none => ⟨200, .workspaceNotFound p.repoId, db1, false⟩
      | some ws =>
        if p.after == ZERO_SHA then
          ⟨200, .branchDeleted branch,
            { db1 with fileActivity := db1.fileActivity.filter (fun fa =>
                !(fa.workspaceId == ws.id && fa.branchName == branch)) }, false⟩
        else
          let modifiedFiles := extractFiles p
          let db2 := modifiedFiles.foldl
            (fun d f => upsertOneFileActivity d ws.id branch f p.after now) db1
          let db3 : DB := { db2 with deliveries := db2.deliveries.map (fun d =>
            if d.deliveryId == did then { d with durationMs := some dur } else d) }
          ⟨200, .processing did, db3, decide (modifiedFiles.length > 0)⟩

/-! ## Spec-side formulations (for refinement comparisons) -/

/-- The spec's raw health expression, written as in §4.5:
`0.4·avg − 5·total − 3·conflict − 5·inactive`. -/
def healthRawOf (db : DB) (wsId : String) (now : Int) : Rat :=
  (2/5 : Rat) * featureCompletionAvg db.features wsId -
    5 * ((getBlockerCounts db.blockers wsId).1 : Rat) -
    3 * ((getBlockerCounts db.blockers wsId).2 : Rat) -
    5 * (getInactiveMemberCount db wsId now : Rat)

/-- The spec's clamp to `[0, 100]`. -/
def clamp0_100 (x : Int) : Int := max 0 (min 100 x)

/-- The spec's health score: `clamp(round(raw), 0, 100)`. -/
def healthScoreSpecOf (db : DB) (wsId : String) (now : Int) : Int :=
  clamp0_100 (jsRound (healthRawOf db wsId now))

/-- The spec's risk tier: `≥80 → HEALTHY`, `≥50 → WARNING`, else `CRITICAL`. -/
def riskLevelOf (score : Int) : RiskLevel :=
  if score ≥ 80 then .HEALTHY else if score ≥ 50 then .WARNING else .CRITICAL

/-! ## Invariants and concrete instances -/

/-- Invariant I1: at most one unresolved blocker per
`(workspace, type, referenceId)` — the partial unique index
`idx_blockers_unique_active` of the schema. -/
def atMostOneActive (bs : List Blocker) : Prop :=
  ∀ (wsId : String) (t : BlockerType) (ref : String), bs.countP (activeKey wsId t ref) ≤ 1

/-- Primary-key discipline of the blockers table: ids are distinct and the
fresh-id supply is really fresh. -/
def blockerIdsOk (db : DB) : Prop :=
  (db.blockers.map (fun b => b.id)).Nodup ∧ ∀ b ∈ db.blockers, b.id < db.nextBlockerId

/-- The workspace's feature rows sharing a given id (the primary key makes
this at most one row). -/
def featuresWithId (db : DB) (fid : String) : List Feature :=
  db.features.filter (fun x => x.id == fid)

/-- The per-row data the dependency query can observe: feature id and
COMPLETE-ness. The Feature Engine never changes it. -/
def featureSkeleton (db : DB) : List (String × Bool) :=
  db.features.map (fun f => (f.id, f.status == FeatureStatus.COMPLETE))

/-- All tables other than `blockers` (and the blocker id supply) agree. -/
def sameTables (d1 d2 : DB) : Prop :=
  d1.workspaces = d2.workspaces ∧ d1.users = d2.users ∧ d1.features = d2.features ∧
  d1.featureDeps = d2.featureDeps ∧ d1.fileActivity = d2.fileActivity ∧
  d1.pullRequests = d2.pullRequests ∧ d1.prFiles = d2.prFiles ∧
  d1.deliveries = d2.deliveries

/-- A sample onboarded workspace (repo id 42, default 72 h window). -/
def wsOne : Workspace := ⟨"w1", 42, 72, 100⟩

/-- Two recent feature branches touching `a.js` in workspace `w1`. -/
def dbConflict : DB := ⟨[wsOne], [], [], [],
  [⟨"w1", "feat-1", "a.js", "h1", 90⟩, ⟨"w1", "feat-2", "a.js", "h2", 95⟩],
  [], [], [], [], 0⟩

/-- A valid push payload for repo 42 touching `a.js` on `feat`. -/
def pushPayloadOne : PushPayload :=
  ⟨"refs/heads/feat", "bef", "abc", [⟨["a.js"], [], []⟩], none, 42, "o/r"⟩

/-- A signed push request with delivery id `d1`. -/
def pushReqOne : WebhookRequest := ⟨some "push", some "d1", true, some pushPayloadOne⟩

/-- A database with no onboarded workspace. -/
def dbNoWorkspace : DB := ⟨[], [], [], [], [], [], [], [], [], 0⟩

/-- A COMPLETE feature. -/
def featAuth : Feature := ⟨"f1", "w1", "Auth", .COMPLETE, 100⟩

/-- A BLOCKED feature depending on `featAuth`. -/
def featProfile : Feature := ⟨"f2", "w1", "Profile", .BLOCKED, 40⟩

/-- Workspace `w1` where `Profile` is BLOCKED on the now-COMPLETE `Auth`,
with its unresolved DEPENDENCY_BLOCK blocker still present. -/
def dbFeatures : DB := ⟨[wsOne], [], [featAuth, featProfile], [⟨"f2", "f1"⟩], [],
  [⟨7, "w1", .DEPENDENCY_BLOCK, "f2", "dep", .HIGH, false⟩], [], [], [], 8⟩

/-- A member whose recent activity is only on a branch not named after them. -/
def userAlice : User := ⟨"u1", "w1", "alice", "uid1"⟩

/-- Workspace `w1` with one member and recent activity only on `feat-bob`. -/
def dbUsers : DB := ⟨[wsOne], [userAlice], [], [],
  [⟨"w1", "feat-bob", "x.js", "h", 90⟩], [], [], [], [], 0⟩

/-! ## General list lemmas -/

/-- Mapping a function that fixes every element of the list is the identity. -/
theorem list_map_id_of {α : Type} (f : α → α) :
    ∀ l : List α, (∀ x ∈ l, f x = x) → l.map f = l := by
  intro l h
  induction l with
  | nil => rfl
  | cons a t ih =>
    simp only [List.map_cons]
    rw [h a (by simp), ih (fun x hx => h x (by simp [hx]))]

/-- `find?` commutes with a map that does not change the predicate. -/
theorem list_find?_map_comm {α : Type} (g : α → α) (q : α → Bool)
    (hq : ∀ x, q (g x) = q x) :
    ∀ l : List α, (l.map g).find? q = (l.find? q).map g := by
  intro l
  induction l with
  | nil => rfl
  | cons a t ih =>
    rw [List.map_cons]
    cases hqa : q a with
    | true =>
      rw [List.find?_cons_of_pos _ (by rw [hq a, hqa]), List.find?_cons_of_pos _ hqa]
      rfl
    | false =>
      rw [List.find?_cons_of_neg _ (by rw [hq a, hqa]; simp),
        List.find?_cons_of_neg _ (by rw [hqa]; simp), ih]

/-- `find?` ignores a map that does not change the predicate and fixes the
elements satisfying it. -/
theorem list_find?_map_eq {α : Type} (g : α → α) (q : α → Bool) :
    ∀ l : List α, (∀ x ∈ l, q (g x) = q x ∧ (q x = true → g x = x)) →
      (l.map g).find? q = l.find? q := by
  intro l h
  induction l with
  | nil => rfl
  | cons a t ih =>
    rcases h a (by simp) with ⟨hq, hid⟩
    rw [List.map_cons]
    cases hqa : q a with
    | true =>
      rw [List.find?_cons_of_pos _ (by rw [hq, hqa]), List.find?_cons_of_pos _ hqa,
        hid hqa]
    | false =>
      rw [List.find?_cons_of_neg _ (by rw [hq, hqa]; simp),
        List.find?_cons_of_neg _ (by rw [hqa]; simp),
        ih (fun x hx => h x (by simp [hx]))]

/-- `filter` commutes with a map that does not change the predicate. -/
theorem list_filter_map_comm {α : Type} (g : α → α) (q : α → Bool)
    (hq : ∀ x, q (g x) = q x) :
    ∀ l : List α, (l.map g).filter q = (l.filter q).map g := by
  intro l
  induction l with
  | nil => rfl
  | cons a t ih =>
    rw [List.map_cons, List.filter_cons, List.filter_cons, hq a]
    cases hqa : q a with
    | true => rw [if_pos rfl, if_pos rfl, List.map_cons, ih]
    | false => rw [if_neg (by simp), if_neg (by simp), ih]

/-- `filter` ignores a map that does not change the predicate and fixes the
elements satisfying it. -/
theorem list_filter_map_eq {α : Type} (g : α → α) (q : α → Bool) :
    ∀ l : List α, (∀ x ∈ l, q (g x) = q x ∧ (q x = true → g x = x)) →
      (l.map g).filter q = l.filter q := by
  intro l h
  induction l with
  | nil => rfl
  | cons a t ih =>
    rcases h a (by simp) with ⟨hq, hid⟩
    rw [List.map_cons, List.filter_cons, List.filter_cons, hq]
    cases hqa : q a with
    | true => rw [if_pos rfl, if_pos rfl, hid hqa, ih (fun x hx => h x (by simp [hx]))]
    | false => rw [if_neg (by simp), if_neg (by simp), ih (fun x hx => h x (by simp [hx]))]

/-- In a list whose keys are distinct, filtering on the key of a member
returns exactly that member. -/
theorem list_filter_key_single {α : Type} {β : Type} [DecidableEq β] (key : α → β) :
    ∀ (l : List α) (x : α), (l.map key).Nodup → x ∈ l →
      l.filter (fun y => key y == key x) = [x] := by
  intro l
  induction l with
  | nil => intro x _ hx; cases hx
  | cons a t ih =>
    intro x hnd hx
    rw [List.map_cons, List.nodup_cons] at hnd
    rw [List.filter_cons]
    rcases List.mem_cons.mp hx with rfl | hxt
    · rw [if_pos (by simp)]
      have : t.filter (fun y => key y == key x) = [] := by
        rw [List.filter_eq_nil_iff]
        intro y hy hk
        exact hnd.1 (by rw [← beq_iff_eq.mp hk]; exact List.mem_map_of_mem key hy)
      rw [this]
    · have hne : ¬(key a == key x) = true := by
        intro hk
        exact hnd.1 (by rw [beq_iff_eq.mp hk]; exact List.mem_map_of_mem key hxt)
      rw [if_neg hne]
      exact ih x hnd.2 hxt

/-! ## C8 — severity classifier precedence -/

/-- **C8** `classifySeverity` is a pure function following first-match-wins
precedence: `prCount ≥ 2 → HIGH`; else `touchesMain = true → HIGH`; else
`branchCount ≥ 3 → HIGH`; else `branchCount = 2 → MEDIUM`; else `LOW`; in
particular `(prCount=2, touchesMain=false, branchCount=1) → HIGH`,
`(branchCount=3) → HIGH`, `(branchCount=2) → MEDIUM`, and
`(branchCount=1, prCount=1) → LOW`. -/
theorem classifySeverity_precedence :
    (∀ s : Signals,
      classifySeverity s =
        if s.prCount ≥ 2 then .HIGH
        else if s.touchesMain then .HIGH
        else if s.branchCount ≥ 3 then .HIGH
        else if s.branchCount = 2 then .MEDIUM
        else .LOW) ∧
    classifySeverity (mkSignals 1 2 false) = .HIGH ∧
    classifySeverity (mkSignals 3 0 false) = .HIGH ∧
    classifySeverity (mkSignals 2 0 false) = .MEDIUM ∧
    classifySeverity (mkSignals 1 1 false) = .LOW := by
  refine ⟨fun s => ?_, by decide, by decide, by decide, by decide⟩
  unfold classifySeverity
  rcases s with ⟨bc, br, tm, pc, pn⟩
  simp only
  split_ifs with h1 h2 h3 h4 h5 <;> first | rfl | omega

/-! ## C6 — `touchesMain` is vacuous in the branch-overlap query -/

/-- **C6** Every result row of the Conflict Engine's branch-overlap query has
`touchesMain = false`, because trunk branches are excluded from the grouped
rows before `BOOL_OR(branch_name IN ('main','master'))` is computed; hence
for signals with `touchesMain = false` and `prCount < 2` the classifier
returns HIGH exactly when `branchCount ≥ 3` — the `touchesMain → HIGH` rule
can never fire from branch-overlap signals alone. -/
theorem branchOverlap_touchesMain_false :
    (∀ (fas : List FileActivity) (wsId : String) (now window : Int),
      ∀ r ∈ branchOverlapQuery fas wsId now window, r.touchesMain = false) ∧
    (∀ s : Signals, s.touchesMain = false → s.prCount < 2 →
      (classifySeverity s = .HIGH ↔ s.branchCount ≥ 3)) := by
  constructor
  · intro fas wsId now window r hr
    unfold branchOverlapQuery at hr
    simp only [List.mem_filter, List.mem_map] at hr
    obtain ⟨⟨p, hp, rfl⟩, hcnt⟩ := hr
    simp only
    rw [List.any_eq_false]
    intro fa hfa
    have h3 : fa ∈ recentConflictRows fas wsId now window := List.mem_of_mem_filter hfa
    simp only [recentConflictRows] at h3
    have h4 := List.of_mem_filter h3
    simp only [Bool.and_eq_true, Bool.not_eq_true'] at h4
    simp [h4.1.2]
  · intro s htm hpc
    unfold classifySeverity
    rw [if_neg (by omega), htm, if_neg (by simp)]
    split_ifs with h3 h2 <;> simp [h3]

/-- Concrete check of both parts of `branchOverlap_touchesMain_false` on the
two-branch example workspace and on the `branchCount = 3` signal. -/
theorem branchOverlap_touchesMain_false_witness :
    ((⟨"a.js", 2, ["feat-1", "feat-2"], false⟩ : BranchOverlapRow) ∈
        branchOverlapQuery dbConflict.fileActivity "w1" 100 72 ∧
      (⟨"a.js", 2, ["feat-1", "feat-2"], false⟩ : BranchOverlapRow).touchesMain = false) ∧
    ((mkSignals 3 0 false).touchesMain = false ∧ (mkSignals 3 0 false).prCount < 2 ∧
      (classifySeverity (mkSignals 3 0 false) = .HIGH ↔
        (mkSignals 3 0 false).branchCount ≥ 3)) := by
  refine ⟨⟨by decide, ?_⟩, by decide, by decide, ?_⟩
  · exact branchOverlap_touchesMain_false.1 dbConflict.fileActivity "w1" 100 72 _ (by decide)
  · exact branchOverlap_touchesMain_false.2 (mkSignals 3 0 false) (by decide) (by decide)

/-! ## C7 — Health Engine formula, clamp and risk tiers -/

/-- `recalculate` persists and broadcasts exactly the spec-shaped score and
risk tier. -/
theorem recalculate_eq (db : DB) (wsId : String) (now : Int) :
    recalculate db wsId now =
      ({ db with workspaces := db.workspaces.map (fun w =>
          if w.id == wsId then { w with healthScore := healthScoreSpecOf db wsId now }
          else w) },
       [.healthUpdate wsId (healthScoreSpecOf db wsId now)
          (riskLevelOf (healthScoreSpecOf db wsId now))]) := by
  unfold recalculate
  have harg : featureCompletionAvg db.features wsId * (2/5 : Rat) -
      ((getBlockerCounts db.blockers wsId).1 : Rat) * 5 -
      ((getBlockerCounts db.blockers wsId).2 : Rat) * 3 -
      (getInactiveMemberCount db wsId now : Rat) * 5 = healthRawOf db wsId now := by
    unfold healthRawOf; ring
  simp only [harg]
  have hsc : min 100 (max 0 (jsRound (healthRawOf db wsId now))) =
      healthScoreSpecOf db wsId now := by
    unfold healthScoreSpecOf clamp0_100; omega
  simp only [hsc]
  rfl

/-- **C7** The Health Engine persists
`health_score = clamp(round(0.4·featureCompletionAvg − 5·activeBlockerTotal −
3·conflictBlockerCount − 5·inactiveMemberCount), 0, 100)` with
`featureCompletionAvg = 0` when the workspace has no features; `raw = −42`
yields score 0 and `raw = 118` yields score 100; the broadcast risk level is
HEALTHY iff score ≥ 80, WARNING iff 50 ≤ score < 80, and CRITICAL otherwise. -/
theorem healthEngine_score_formula :
    (∀ (db : DB) (wsId : String) (now : Int),
      ((recalculate db wsId now).2 =
        [Event.healthUpdate wsId (healthScoreSpecOf db wsId now)
          (riskLevelOf (healthScoreSpecOf db wsId now))]) ∧
      ∀ w ∈ (recalculate db wsId now).1.workspaces, w.id = wsId →
        w.healthScore = healthScoreSpecOf db wsId now) ∧
    (∀ (features : List Feature) (wsId : String),
      features.filter (fun f => f.workspaceId == wsId) = [] →
      featureCompletionAvg features wsId = 0) ∧
    clamp0_100 (jsRound (-42 : Rat)) = 0 ∧
    clamp0_100 (jsRound (118 : Rat)) = 100 ∧
    (∀ sc : Int, (riskLevelOf sc = .HEALTHY ↔ 80 ≤ sc) ∧
      (riskLevelOf sc = .WARNING ↔ 50 ≤ sc ∧ sc < 80) ∧
      (riskLevelOf sc = .CRITICAL ↔ sc < 50)) := by
  have hm42 : jsRound (-42 : Rat) = -42 := by
    unfold jsRound
    rw [Int.floor_eq_iff]
    constructor <;> norm_num
  have h118 : jsRound (118 : Rat) = 118 := by
    unfold jsRound
    rw [Int.floor_eq_iff]
    constructor <;> norm_num
  refine ⟨fun db wsId now => ⟨?_, ?_⟩, fun features wsId h => ?_,
    by rw [hm42]; decide, by rw [h118]; decide, fun sc => ?_⟩
  · rw [recalculate_eq]
  · rw [recalculate_eq]
    intro w hw hid
    rcases List.mem_map.mp hw with ⟨w0, hw0, rfl⟩
    cases hbe : (w0.id == wsId) with
    | true => simp [hbe]
    | false =>
      rw [hbe, if_neg Bool.false_ne_true] at hid
      exact absurd (beq_iff_eq.mpr hid) (by simp [hbe])
  · unfold featureCompletionAvg
    rw [h]
    simp
  · unfold riskLevelOf
    refine ⟨?_, ?_, ?_⟩ <;> split_ifs with h1 h2 <;> simp_all <;> omega

/-- Concrete check of `healthEngine_score_formula`: the empty workspace has
average 0, and `dbFeatures` (avg 70, one active blocker) scores 23. -/
theorem healthEngine_score_formula_witness :
    (dbNoWorkspace.features.filter (fun f => f.workspaceId == "w1") = [] ∧
      featureCompletionAvg dbNoWorkspace.features "w1" = 0) ∧
    (recalculate dbFeatures "w1" 100).2 =
      [Event.healthUpdate "w1" (healthScoreSpecOf dbFeatures "w1" 100)
        (riskLevelOf (healthScoreSpecOf dbFeatures "w1" 100))] ∧
    healthScoreSpecOf dbFeatures "w1" 100 = 23 := by
  have hraw : healthRawOf dbFeatures "w1" 100 = 23 := by
    simp +decide [healthRawOf, featureCompletionAvg, getBlockerCounts,
      getInactiveMemberCount, inactiveMembers, dbFeatures, featAuth, featProfile, wsOne]
    norm_num
  have hsc : healthScoreSpecOf dbFeatures "w1" 100 = 23 := by
    unfold healthScoreSpecOf
    rw [hraw]
    have h23 : jsRound (23 : Rat) = 23 := by
      unfold jsRound
      rw [Int.floor_eq_iff]
      constructor <;> norm_num
    rw [h23]
    decide
  exact ⟨⟨by decide, healthEngine_score_formula.2.1 dbNoWorkspace.features "w1" (by decide)⟩,
    (healthEngine_score_formula.1 dbFeatures "w1" 100).1, hsc⟩

/-! ## C10 — inactive-member counting -/

/-- **C10** `inactiveMemberCount` counts exactly the workspace members with
no workspace FileActivity row updated within the last 7 days (a fixed
168-hour window) whose branch name contains the member's username as a
case-insensitive substring; a member whose recent activity is only on
branches not named after them is counted as inactive; and the count is
independent of everything but the `users` and `file_activity` tables — in
particular of the configured `activityWindowHours`. -/
theorem inactiveMemberCount_spec :
    (∀ (users : List User) (fas : List FileActivity) (wsId : String) (now : Int) (u : User),
      u ∈ inactiveMembers users fas wsId now ↔
        (u ∈ users ∧ u.workspaceId = wsId ∧
          ¬∃ fa, fa ∈ fas ∧ fa.workspaceId = wsId ∧ now - 168 ≤ fa.updatedAt ∧
            containsCI fa.branchName u.githubUsername = true)) ∧
    (∀ (users : List User) (fas : List FileActivity) (wsId : String) (now : Int) (u : User),
      u ∈ users → u.workspaceId = wsId →
      (∀ fa ∈ fas, fa.workspaceId = wsId → now - 168 ≤ fa.updatedAt →
        containsCI fa.branchName u.githubUsername = false) →
      u ∈ inactiveMembers users fas wsId now) ∧
    (∀ (db1 db2 : DB) (wsId : String) (now : Int), db1.users = db2.users →
      db1.fileActivity = db2.fileActivity →
      getInactiveMemberCount db1 wsId now = getInactiveMemberCount db2 wsId now) := by
  have hiff : ∀ (users : List User) (fas : List FileActivity) (wsId : String) (now : Int)
      (u : User),
      u ∈ inactiveMembers users fas wsId now ↔
        (u ∈ users ∧ u.workspaceId = wsId ∧
          ¬∃ fa, fa ∈ fas ∧ fa.workspaceId = wsId ∧ now - 168 ≤ fa.updatedAt ∧
            containsCI fa.branchName u.githubUsername = true) := by
    intro users fas wsId now u
    unfold inactiveMembers
    constructor
    · intro h
      rcases List.mem_filter.mp h with ⟨hmem, hpred⟩
      simp only [Bool.and_eq_true, beq_iff_eq, Bool.not_eq_true', List.any_eq_false] at hpred
      refine ⟨hmem, hpred.1, ?_⟩
      rintro ⟨fa, hfa, hws, ht, hc⟩
      have h2 := hpred.2 fa hfa
      simp only [Bool.and_eq_true, beq_iff_eq, decide_eq_true_eq] at h2
      exact h2 ⟨⟨hws, ht⟩, hc⟩
    · rintro ⟨hmem, hws, hnex⟩
      refine List.mem_filter.mpr ⟨hmem, ?_⟩
      simp only [Bool.and_eq_true, beq_iff_eq, Bool.not_eq_true', List.any_eq_false]
      refine ⟨hws, fun fa hfa => ?_⟩
      simp only [Bool.and_eq_true, beq_iff_eq, decide_eq_true_eq]
      rintro ⟨⟨h1, h2⟩, h3⟩
      exact hnex ⟨fa, hfa, h1, h2, h3⟩
  refine ⟨hiff, fun users fas wsId now u hmem hws hall => ?_, fun db1 db2 wsId now h1 h2 => ?_⟩
  · refine (hiff users fas wsId now u).mpr ⟨hmem, hws, ?_⟩
    rintro ⟨fa, hfa, hfw, hft, hfc⟩
    rw [hall fa hfa hfw hft] at hfc
    exact Bool.false_ne_true hfc
  · unfold getInactiveMemberCount
    rw [h1, h2]

/-- Concrete check of `inactiveMemberCount_spec`: `alice`, whose only recent
activity is on `feat-bob`, is inactive; dropping the workspace row (and its
configured window) leaves the count unchanged. -/
theorem inactiveMemberCount_spec_witness :
    userAlice ∈ inactiveMembers dbUsers.users dbUsers.fileActivity "w1" 100 ∧
    getInactiveMemberCount dbUsers "w1" 100 =
      getInactiveMemberCount { dbUsers with workspaces := [] } "w1" 100 := by
  constructor
  · exact inactiveMemberCount_spec.2.1 dbUsers.users dbUsers.fileActivity "w1" 100 userAlice
      (by decide) (by decide) (by decide)
  · exact inactiveMemberCount_spec.2.2 dbUsers { dbUsers with workspaces := [] } "w1" 100
      rfl rfl

/-! ## Frame lemmas for the blocker-writing operations -/

/-- `sameTables` is reflexive. -/
theorem sameTables_refl (d : DB) : sameTables d d :=
  ⟨rfl, rfl, rfl, rfl, rfl, rfl, rfl, rfl⟩

/-- `sameTables` is transitive. -/
theorem sameTables_trans {d1 d2 d3 : DB} (h1 : sameTables d1 d2) (h2 : sameTables d2 d3) :
    sameTables d1 d3 := by
  obtain ⟨a1, b1, c1, e1, f1, g1, i1, j1⟩ := h1
  obtain ⟨a2, b2, c2, e2, f2, g2, i2, j2⟩ := h2
  exact ⟨a1.trans a2, b1.trans b2, c1.trans c2, e1.trans e2, f1.trans f2, g1.trans g2,
    i1.trans i2, j1.trans j2⟩

/-- Two database states agreeing on every field are equal. -/
theorem DB_eq_of {d1 d2 : DB} (h : sameTables d1 d2) (hb : d1.blockers = d2.blockers)
    (hn : d1.nextBlockerId = d2.nextBlockerId) : d1 = d2 := by
  obtain ⟨a, b, c, e, f, g, i, j⟩ := h
  cases d1
  cases d2
  simp_all

/-- `upsertConflictBlocker` writes only the blockers table. -/
theorem upsertConflictBlocker_frame (db : DB) (wsId p : String) (sev : Severity)
    (desc : String) : sameTables (upsertConflictBlocker db wsId p sev desc) db := by
  unfold upsertConflictBlocker
  cases findActiveBlocker db.blockers wsId .FILE_CONFLICT_RISK p with
  | none => exact ⟨rfl, rfl, rfl, rfl, rfl, rfl, rfl, rfl⟩
  | some cur =>
    dsimp only
    split_ifs <;> exact ⟨rfl, rfl, rfl, rfl, rfl, rfl, rfl, rfl⟩

/-- `upsertAll` writes only the blockers table. -/
theorem upsertAll_frame (wsId : String) :
    ∀ (entries : List (String × Signals)) (db : DB),
      sameTables (upsertAll db wsId entries) db := by
  intro entries
  induction entries with
  | nil => intro db; exact sameTables_refl _
  | cons e rest ih =>
    intro db
    exact sameTables_trans (ih _) (upsertConflictBlocker_frame db wsId e.1
      (classifySeverity e.2) (buildDescription e.1 e.2))

/-- `resolveStaleBlockers` writes only the blockers table. -/
theorem resolveStaleBlockers_frame (db : DB) (wsId : String) (now window : Int) :
    sameTables (resolveStaleBlockers db wsId now window) db :=
  sameTables_refl _

/-! ## C3 — set-based stale-blocker resolution -/

/-- After `resolveStaleBlockers` runs, every still-unresolved
FILE_CONFLICT_RISK blocker of the workspace names a file in the conflict
set. -/
theorem resolveStale_post (db : DB) (wsId : String) (now window : Int) :
    ∀ b ∈ (resolveStaleBlockers db wsId now window).blockers,
      b.workspaceId = wsId → b.type = .FILE_CONFLICT_RISK → b.resolved = false →
      inConflictSet db.fileActivity db.pullRequests db.prFiles wsId now window
        b.referenceId = true := by
  intro b hb hws ht hr
  unfold resolveStaleBlockers at hb
  simp only [List.mem_map] at hb
  obtain ⟨b0, hb0, rfl⟩ := hb
  cases hcd : (b0.workspaceId == wsId && b0.type == BlockerType.FILE_CONFLICT_RISK &&
      b0.resolved == false &&
      !inConflictSet db.fileActivity db.pullRequests db.prFiles wsId now window
        b0.referenceId) with
  | true =>
    rw [hcd, if_pos rfl] at hr
    simp at hr
  | false =>
    rw [hcd, if_neg Bool.false_ne_true] at hws ht hr
    rw [if_neg Bool.false_ne_true]
    by_contra hset
    have hD : (!inConflictSet db.fileActivity db.pullRequests db.prFiles wsId now window
        b0.referenceId) = true := by
      rw [Bool.not_eq_true']
      exact Bool.eq_false_iff.mpr hset
    rw [beq_iff_eq.mpr hws, beq_iff_eq.mpr ht, beq_iff_eq.mpr hr, hD] at hcd
    simp at hcd

/-- **C3** `resolveStaleBlockers` marks `resolved = true` exactly the
previously-unresolved FILE_CONFLICT_RISK blockers of the workspace whose
`referenceId` is outside the current conflict set (≥ 2 recent non-trunk
branches, or ≥ 2 open PRs, on the file); afterwards — in particular after a
Conflict Engine run — every still-unresolved FILE_CONFLICT_RISK blocker
names a file of the conflict set, and blockers of other types or workspaces
are untouched. -/
theorem resolveStaleBlockers_correct :
    ∀ (db : DB) (wsId : String) (now window : Int),
      ((resolveStaleBlockers db wsId now window).blockers =
        db.blockers.map (fun b =>
          if b.workspaceId == wsId && b.type == BlockerType.FILE_CONFLICT_RISK &&
              b.resolved == false &&
              !inConflictSet db.fileActivity db.pullRequests db.prFiles wsId now window
                b.referenceId
          then { b with resolved := true } else b)) ∧
      (∀ b ∈ (resolveStaleBlockers db wsId now window).blockers,
        b.workspaceId = wsId → b.type = .FILE_CONFLICT_RISK → b.resolved = false →
        inConflictSet db.fileActivity db.pullRequests db.prFiles wsId now window
          b.referenceId = true) ∧
      (∀ b ∈ db.blockers, (b.workspaceId ≠ wsId ∨ b.type ≠ .FILE_CONFLICT_RISK) →
        b ∈ (resolveStaleBlockers db wsId now window).blockers) ∧
      (∀ files : List String, files ≠ [] →
        ∀ b ∈ (runConflictEngine db wsId files now).1.blockers,
          b.workspaceId = wsId → b.type = .FILE_CONFLICT_RISK → b.resolved = false →
          inConflictSet db.fileActivity db.pullRequests db.prFiles wsId now
            (workspaceWindow db wsId) b.referenceId = true) := by
  intro db wsId now window
  refine ⟨rfl, resolveStale_post db wsId now window, ?_, ?_⟩
  · intro b hb hne
    have hcf : (b.workspaceId == wsId && b.type == BlockerType.FILE_CONFLICT_RISK &&
        b.resolved == false &&
        !inConflictSet db.fileActivity db.pullRequests db.prFiles wsId now window
          b.referenceId) = false := by
      cases hc2 : (b.workspaceId == wsId && b.type == BlockerType.FILE_CONFLICT_RISK &&
          b.resolved == false &&
          !inConflictSet db.fileActivity db.pullRequests db.prFiles wsId now window
            b.referenceId) with
      | false => rfl
      | true =>
        simp only [Bool.and_eq_true, beq_iff_eq] at hc2
        rcases hne with h | h
        · exact absurd hc2.1.1.1 h
        · exact absurd hc2.1.1.2 h
    unfold resolveStaleBlockers
    simp only [List.mem_map]
    exact ⟨b, hb, by rw [hcf, if_neg Bool.false_ne_true]⟩
  · intro files hf b hb hws ht hr
    unfold runConflictEngine at hb
    rw [if_neg (by simpa using hf)] at hb
    simp only at hb
    have hp := resolveStale_post _ wsId now (workspaceWindow db wsId) b hb hws ht hr
    have hfr := upsertAll_frame wsId
      (conflictMap (branchOverlapQuery db.fileActivity wsId now (workspaceWindow db wsId))
        (prOverlapQuery db.pullRequests db.prFiles wsId)) db
    rw [hfr.2.2.2.2.1, hfr.2.2.2.2.2.1, hfr.2.2.2.2.2.2.1] at hp
    exact hp

/-- Concrete check of `resolveStaleBlockers_correct` on a workspace whose
only conflict file is `a.js`: a stale blocker on `old.md` is resolved, a
DEPENDENCY_BLOCK blocker is untouched, and after an engine run the surviving
unresolved conflict blocker names `a.js`. -/
theorem resolveStaleBlockers_correct_witness :
    ((⟨3, "w1", .DEPENDENCY_BLOCK, "f9", "d", .HIGH, false⟩ : Blocker) ∈
      (resolveStaleBlockers
        { dbConflict with blockers :=
            [⟨2, "w1", .FILE_CONFLICT_RISK, "old.md", "d", .MEDIUM, false⟩,
             ⟨3, "w1", .DEPENDENCY_BLOCK, "f9", "d", .HIGH, false⟩] }
        "w1" 100 72).blockers) ∧
    (∀ b ∈ (runConflictEngine
        { dbConflict with blockers :=
            [⟨2, "w1", .FILE_CONFLICT_RISK, "old.md", "d", .MEDIUM, false⟩] }
        "w1" ["a.js"] 100).1.blockers,
      b.workspaceId = "w1" → b.type = .FILE_CONFLICT_RISK → b.resolved = false →
      inConflictSet dbConflict.fileActivity dbConflict.pullRequests dbConflict.prFiles
        "w1" 100 (workspaceWindow dbConflict "w1") b.referenceId = true) := by
  constructor
  · exact (resolveStaleBlockers_correct
      { dbConflict with blockers :=
          [⟨2, "w1", .FILE_CONFLICT_RISK, "old.md", "d", .MEDIUM, false⟩,
           ⟨3, "w1", .DEPENDENCY_BLOCK, "f9", "d", .HIGH, false⟩] }
      "w1" 100 72).2.2.1 _ (by decide) (by right; decide)
  · exact (resolveStaleBlockers_correct
      { dbConflict with blockers :=
          [⟨2, "w1", .FILE_CONFLICT_RISK, "old.md", "d", .MEDIUM, false⟩] }
      "w1" 100 72).2.2.2 ["a.js"] (by decide)

/-! ## C4 — blocker uniqueness (invariant I1) is preserved -/

/-- A map that can only keep a blocker or mark it resolved never increases
the number of active blockers of any key. -/
theorem countP_activeKey_map_le (wsId : String) (t : BlockerType) (ref : String)
    (g : Blocker → Blocker)
    (hg : ∀ b, activeKey wsId t ref (g b) = true → activeKey wsId t ref b = true)
    (bs : List Blocker) :
    (bs.map g).countP (activeKey wsId t ref) ≤ bs.countP (activeKey wsId t ref) := by
  rw [List.countP_map]
  exact List.countP_mono_left (fun x _ h => hg x h)

/-- Marking a blocker resolved falsifies `activeKey`. -/
theorem activeKey_mark_resolved (wsId : String) (t : BlockerType) (ref : String)
    (b : Blocker) : activeKey wsId t ref { b with resolved := true } = false := by
  unfold activeKey
  simp

/-- **C4** Every blocker-writing operation — `upsertConflictBlocker`, the
Feature Engine's DEPENDENCY_BLOCK insert and resolve, and
`resolveStaleBlockers` — preserves the invariant that each
`(workspace, type, referenceId)` has at most one unresolved blocker row. -/
theorem blocker_ops_preserve_uniqueness :
    ∀ (db : DB) (wsId p : String) (sev : Severity) (desc fid d : String)
      (now window : Int),
      atMostOneActive db.blockers →
      atMostOneActive (upsertConflictBlocker db wsId p sev desc).blockers ∧
      atMostOneActive (insertDependencyBlockerIfAbsent db wsId fid d).blockers ∧
      atMostOneActive (resolveDependencyBlockers db wsId fid).blockers ∧
      atMostOneActive (resolveStaleBlockers db wsId now window).blockers := by
  intro db wsId p sev desc fid d now window h1
  refine ⟨?_, ?_, ?_, ?_⟩
  · -- upsertConflictBlocker
    unfold upsertConflictBlocker
    cases hfind : findActiveBlocker db.blockers wsId .FILE_CONFLICT_RISK p with
    | some cur =>
      dsimp only
      split_ifs with hsev
      · intro kws kt kref
        dsimp only
        rw [List.countP_map]
        have : ∀ x, activeKey kws kt kref
            (if (x.id == cur.id) = true then
              { x with severity := sev, description := desc } else x) =
            activeKey kws kt kref x := by
          intro x
          split_ifs <;> rfl
        calc db.blockers.countP (fun x => activeKey kws kt kref
              (if (x.id == cur.id) = true then
                { x with severity := sev, description := desc } else x))
            = db.blockers.countP (activeKey kws kt kref) := by
              apply List.countP_congr
              intro x _
              rw [this x]
          _ ≤ 1 := h1 kws kt kref
      · exact h1
    | none =>
      intro kws kt kref
      dsimp only
      rw [List.countP_append]
      cases hk : activeKey kws kt kref
          { id := db.nextBlockerId, workspaceId := wsId, type := .FILE_CONFLICT_RISK,
            referenceId := p, description := desc, severity := sev, resolved := false } with
      | false =>
        have h0 : List.countP (activeKey kws kt kref)
            [({ id := db.nextBlockerId, workspaceId := wsId, type := .FILE_CONFLICT_RISK,
                referenceId := p, description := desc, severity := sev,
                resolved := false } : Blocker)] = 0 := by
          rw [List.countP_eq_zero]
          intro a ha
          rw [List.mem_singleton] at ha
          rw [ha, hk]
          simp
        rw [h0]
        simpa using h1 kws kt kref
      | true =>
        unfold activeKey at hk
        simp only [Bool.and_eq_true, beq_iff_eq] at hk
        obtain ⟨⟨⟨hkw, hkt⟩, hkr⟩, _⟩ := hk
        have hz : db.blockers.countP (activeKey kws kt kref) = 0 := by
          rw [List.countP_eq_zero]
          intro a ha hak
          have := List.find?_eq_none.mp hfind a ha
          rw [hkw, hkt, hkr] at this
          exact this hak
        rw [hz]
        have : List.countP (activeKey kws kt kref)
            [({ id := db.nextBlockerId, workspaceId := wsId, type := .FILE_CONFLICT_RISK,
                referenceId := p, description := desc, severity := sev,
                resolved := false } : Blocker)] ≤ 1 := by
          simpa using List.countP_le_length (activeKey kws kt kref) (l :=
            [({ id := db.nextBlockerId, workspaceId := wsId, type := .FILE_CONFLICT_RISK,
                referenceId := p, description := desc, severity := sev,
                resolved := false } : Blocker)])
        omega
  · -- insertDependencyBlockerIfAbsent
    unfold insertDependencyBlockerIfAbsent
    cases hfind : findActiveBlocker db.blockers wsId .DEPENDENCY_BLOCK fid with
    | some cur => exact h1
    | none =>
      intro kws kt kref
      dsimp only
      rw [List.countP_append]
      cases hk : activeKey kws kt kref
          { id := db.nextBlockerId, workspaceId := wsId, type := .DEPENDENCY_BLOCK,
            referenceId := fid, description := d, severity := .HIGH,
            resolved := false } with
      | false =>
        have h0 : List.countP (activeKey kws kt kref)
            [({ id := db.nextBlockerId, workspaceId := wsId, type := .DEPENDENCY_BLOCK,
                referenceId := fid, description := d, severity := .HIGH,
                resolved := false } : Blocker)] = 0 := by
          rw [List.countP_eq_zero]
          intro a ha
          rw [List.mem_singleton] at ha
          rw [ha, hk]
          simp
        rw [h0]
        simpa using h1 kws kt kref
      | true =>
        unfold activeKey at hk
        simp only [Bool.and_eq_true, beq_iff_eq] at hk
        obtain ⟨⟨⟨hkw, hkt⟩, hkr⟩, _⟩ := hk
        have hz : db.blockers.countP (activeKey kws kt kref) = 0 := by
          rw [List.countP_eq_zero]
          intro a ha hak
          have := List.find?_eq_none.mp hfind a ha
          rw [hkw, hkt, hkr] at this
          exact this hak
        rw [hz]
        have : List.countP (activeKey kws kt kref)
            [({ id := db.nextBlockerId, workspaceId := wsId, type := .DEPENDENCY_BLOCK,
                referenceId := fid, description := d, severity := .HIGH,
                resolved := false } : Blocker)] ≤ 1 := by
          simpa using List.countP_le_length (activeKey kws kt kref) (l :=
            [({ id := db.nextBlockerId, workspaceId := wsId, type := .DEPENDENCY_BLOCK,
                referenceId := fid, description := d, severity := .HIGH,
                resolved := false } : Blocker)])
        omega
  · -- resolveDependencyBlockers
    intro kws kt kref
    unfold resolveDependencyBlockers
    dsimp only
    refine le_trans (countP_activeKey_map_le kws kt kref _ ?_ db.blockers) (h1 kws kt kref)
    intro b hab
    split_ifs at hab with hc
    · rw [activeKey_mark_resolved] at hab
      exact absurd hab (by simp)
    · exact hab
  · -- resolveStaleBlockers
    intro kws kt kref
    unfold resolveStaleBlockers
    dsimp only
    refine le_trans (countP_activeKey_map_le kws kt kref _ ?_ db.blockers) (h1 kws kt kref)
    intro b hab
    split_ifs at hab with hc
    · rw [activeKey_mark_resolved] at hab
      exact absurd hab (by simp)
    · exact hab

/-- Concrete check of `blocker_ops_preserve_uniqueness` on a one-blocker
table satisfying I1. -/
theorem blocker_ops_preserve_uniqueness_witness :
    atMostOneActive dbFeatures.blockers ∧
    atMostOneActive (upsertConflictBlocker dbFeatures "w1" "a.js" .MEDIUM "d").blockers := by
  have hone : atMostOneActive dbFeatures.blockers := by
    intro kws kt kref
    simpa using List.countP_le_length (activeKey kws kt kref) (l := dbFeatures.blockers)
  exact ⟨hone,
    (blocker_ops_preserve_uniqueness dbFeatures "w1" "a.js" .MEDIUM "d" "f" "d2" 100 72
      hone).1⟩

/-! ## Webhook handler lemmas -/

/-- `any` respects pointwise-equal predicates. -/
theorem list_any_congr {α : Type} (p q : α → Bool) :
    ∀ l : List α, (∀ x ∈ l, p x = q x) → l.any p = l.any q := by
  intro l h
  induction l with
  | nil => rfl
  | cons a t ih =>
    rw [List.any_cons, List.any_cons, h a (by simp), ih (fun x hx => h x (by simp [hx]))]

/-- A rejecting gate never produces a post-dedup status. -/
theorem gate_reject_status_ne (req : WebhookRequest) (hs : Nat) (s : WebhookStatus)
    (hg : gate req = .reject hs s) :
    (∀ d, s ≠ .processing d) ∧ (∀ r, s ≠ .workspaceNotFound r) ∧
    (∀ b, s ≠ .branchDeleted b) ∧ (∀ d, s ≠ .duplicate d) := by
  unfold gate at hg
  repeat' split at hg
  all_goals first
    | exact GateOutcome.noConfusion hg
    | (injection hg with h1 h2
       subst h2
       exact ⟨fun d h => WebhookStatus.noConfusion h, fun r h => WebhookStatus.noConfusion h,
         fun b h => WebhookStatus.noConfusion h, fun d h => WebhookStatus.noConfusion h⟩)

/-- An accepting gate returns the request's delivery-id header. -/
theorem gate_accept_deliveryId (req : WebhookRequest) (did : String) (p : PushPayload)
    (hg : gate req = .accept did p) : req.deliveryId = some did := by
  unfold gate at hg
  repeat' split at hg
  all_goals simp_all

/-- The file-activity batch upsert never touches the delivery log. -/
theorem upsertOneFileActivity_deliveries (db : DB) (wsId branch path hash : String)
    (now : Int) : (upsertOneFileActivity db wsId branch path hash now).deliveries =
      db.deliveries := by
  unfold upsertOneFileActivity
  split_ifs <;> rfl

/-- Folding the batch upsert never touches the delivery log. -/
theorem foldl_upsertFA_deliveries (wsId branch hash : String) (now : Int) :
    ∀ (files : List String) (db : DB),
      (files.foldl (fun d f => upsertOneFileActivity d wsId branch f hash now)
        db).deliveries = db.deliveries := by
  intro files
  induction files with
  | nil => intro db; rfl
  | cons f rest ih =>
    intro db
    rw [List.foldl_cons, ih, upsertOneFileActivity_deliveries]

/-- On a state whose delivery log already holds the delivery id, any request
passing the gates is answered `200 duplicate` with no change and no
dispatch. -/
theorem handleWebhook_duplicate (db : DB) (req : WebhookRequest) (now dur : Int)
    (did : String) (p : PushPayload) (hg : gate req = .accept did p)
    (hde : deliveryExists db.deliveries did = true) :
    handleWebhook db req now dur = ⟨200, .duplicate did, db, false⟩ := by
  unfold handleWebhook
  rw [hg]
  dsimp only
  rw [hde, if_pos rfl]

/-- A `processing` answer means the gates accepted the request and its
delivery id is in the committed delivery log. -/
theorem handleWebhook_processing_spec (db : DB) (req : WebhookRequest) (now dur : Int)
    (did : String) (h : (handleWebhook db req now dur).status = .processing did) :
    (∃ p, gate req = .accept did p) ∧
    deliveryExists (handleWebhook db req now dur).db.deliveries did = true := by
  cases hg : gate req with
  | reject hs s =>
    unfold handleWebhook at h
    rw [hg] at h
    try dsimp only at h
    exact absurd h ((gate_reject_status_ne req hs s hg).1 did)
  | accept did0 p =>
    unfold handleWebhook at h ⊢
    rw [hg] at h ⊢
    try dsimp only at h ⊢
    cases hde : deliveryExists db.deliveries did0 with
    | true =>
      rw [hde, if_pos rfl] at h
      try dsimp only at h
      exact absurd h (fun hx => WebhookStatus.noConfusion hx)
    | false =>
      rw [hde, if_neg Bool.false_ne_true] at h
      rw [if_neg Bool.false_ne_true]
      try dsimp only at h ⊢
      cases hfw : db.workspaces.find? (fun w => w.githubRepoId == p.repoId) with
      | none =>
        rw [hfw] at h
        try dsimp only at h
        exact absurd h (fun hx => WebhookStatus.noConfusion hx)
      | some ws =>
        rw [hfw] at h
        try dsimp only at h ⊢
        cases hzs : (p.after == ZERO_SHA) with
        | true =>
          rw [hzs, if_pos rfl] at h
          try dsimp only at h
          exact absurd h (fun hx => WebhookStatus.noConfusion hx)
        | false =>
          rw [hzs, if_neg Bool.false_ne_true] at h
          rw [if_neg Bool.false_ne_true]
          try dsimp only at h ⊢
          injection h with hdid0
          subst hdid0
          refine ⟨⟨p, rfl⟩, ?_⟩
          rw [foldl_upsertFA_deliveries]
          unfold deliveryExists
          rw [List.any_map]
          rw [list_any_congr _ (fun x => x.deliveryId == did0) _ ?_]
          · rw [List.any_append]
            simp
          · intro d _
            dsimp only [Function.comp]
            split_ifs <;> rfl

/-- A `workspace_not_found` answer still commits the delivery-log row and
dispatches nothing. -/
theorem handleWebhook_notfound_spec (db : DB) (req : WebhookRequest) (now dur : Int)
    (rid : Int) (h : (handleWebhook db req now dur).status = .workspaceNotFound rid) :
    ∃ (did : String) (p : PushPayload), gate req = .accept did p ∧
      (handleWebhook db req now dur).db =
        { db with deliveries := db.deliveries ++
            [⟨did, p.repoId, replaceFirst p.ref "refs/heads/" "", p.after, none, now⟩] } ∧
      (handleWebhook db req now dur).dispatched = false := by
  cases hg : gate req with
  | reject hs s =>
    unfold handleWebhook at h
    rw [hg] at h
    try dsimp only at h
    exact absurd h ((gate_reject_status_ne req hs s hg).2.1 rid)
  | accept did0 p =>
    unfold handleWebhook at h ⊢
    rw [hg] at h ⊢
    try dsimp only at h ⊢
    cases hde : deliveryExists db.deliveries did0 with
    | true =>
      rw [hde, if_pos rfl] at h
      try dsimp only at h
      exact absurd h (fun hx => WebhookStatus.noConfusion hx)
    | false =>
      rw [hde, if_neg Bool.false_ne_true] at h
      rw [if_neg Bool.false_ne_true]
      try dsimp only at h ⊢
      cases hfw : db.workspaces.find? (fun w => w.githubRepoId == p.repoId) with
      | none =>
        rw [hfw] at h
        try dsimp only at h ⊢
        exact ⟨did0, p, rfl, rfl, rfl⟩
      | some ws =>
        rw [hfw] at h
        try dsimp only at h
        cases hzs : (p.after == ZERO_SHA) with
        | true =>
          rw [hzs, if_pos rfl] at h
          try dsimp only at h
          exact absurd h (fun hx => WebhookStatus.noConfusion hx)
        | false =>
          rw [hzs, if_neg Bool.false_ne_true] at h
          try dsimp only at h
          exact absurd h (fun hx => WebhookStatus.noConfusion hx)

/-! ## C1 — idempotent webhook ingestion -/

/-- **C1** After a push delivery was processed, a second POST carrying the
same delivery id (any request the gates accept with that id) is answered
HTTP 200 with body status `duplicate`, leaves the database unchanged — no
new FileActivity rows, no new or modified delivery-log row — and dispatches
no engines. -/
theorem webhook_duplicate_idempotent (db : DB) (req : WebhookRequest)
    (now1 dur1 now2 dur2 : Int) (did : String)
    (h : (handleWebhook db req now1 dur1).status = .processing did) :
    handleWebhook (handleWebhook db req now1 dur1).db req now2 dur2 =
      ⟨200, .duplicate did, (handleWebhook db req now1 dur1).db, false⟩ := by
  obtain ⟨⟨p, hg⟩, hde⟩ := handleWebhook_processing_spec db req now1 dur1 did h
  exact handleWebhook_duplicate _ req now2 dur2 did p hg hde

/-- Concrete check of `webhook_duplicate_idempotent`: replaying `d1` against
`dbConflict` answers `duplicate` and changes nothing. -/
theorem webhook_duplicate_idempotent_witness :
    (handleWebhook dbConflict pushReqOne 100 3).status = .processing "d1" ∧
    handleWebhook (handleWebhook dbConflict pushReqOne 100 3).db pushReqOne 101 4 =
      ⟨200, .duplicate "d1", (handleWebhook dbConflict pushReqOne 100 3).db, false⟩ :=
  ⟨by decide, webhook_duplicate_idempotent dbConflict pushReqOne 100 3 101 4 "d1"
    (by decide)⟩

/-! ## C9 — `workspace_not_found` still commits the delivery row -/

/-- **C9** When a push's repository matches no onboarded workspace the
handler still inserts and commits the delivery-log row before answering
`workspace_not_found`, dispatching nothing; every later gated redelivery of
the same delivery id is answered `duplicate` with no processing, even after
workspaces (for instance one for that repository) are onboarded. -/
theorem webhook_workspace_not_found_logs_delivery
    (db : DB) (req req2 : WebhookRequest) (now1 dur1 now2 dur2 : Int)
    (rid : Int) (did : String) (p2 : PushPayload) (wsNew : List Workspace)
    (h : (handleWebhook db req now1 dur1).status = .workspaceNotFound rid)
    (hdid : req.deliveryId = some did)
    (h2 : gate req2 = .accept did p2) :
    (∃ row : WebhookDelivery, row.deliveryId = did ∧
      (handleWebhook db req now1 dur1).db =
        { db with deliveries := db.deliveries ++ [row] }) ∧
    (handleWebhook db req now1 dur1).dispatched = false ∧
    handleWebhook
        { (handleWebhook db req now1 dur1).db with
          workspaces := (handleWebhook db req now1 dur1).db.workspaces ++ wsNew }
        req2 now2 dur2 =
      ⟨200, .duplicate did,
        { (handleWebhook db req now1 dur1).db with
          workspaces := (handleWebhook db req now1 dur1).db.workspaces ++ wsNew },
        false⟩ := by
  obtain ⟨did0, p, hg, hdb, hdisp⟩ := handleWebhook_notfound_spec db req now1 dur1 rid h
  have hdd : did0 = did := by
    have hq := gate_accept_deliveryId req did0 p hg
    rw [hdid] at hq
    exact ((Option.some.injEq did did0).mp hq).symm
  subst hdd
  refine ⟨⟨_, rfl, hdb⟩, hdisp, ?_⟩
  apply handleWebhook_duplicate _ req2 now2 dur2 did0 p2 h2
  rw [hdb]
  unfold deliveryExists
  dsimp only
  rw [List.any_append]
  simp

/-- Concrete check of `webhook_workspace_not_found_logs_delivery`: repo 42 is
not onboarded, the delivery row is committed, and redelivery after
onboarding `wsOne` answers `duplicate`. -/
theorem webhook_workspace_not_found_witness :
    (handleWebhook dbNoWorkspace pushReqOne 100 3).status = .workspaceNotFound 42 ∧
    pushReqOne.deliveryId = some "d1" ∧
    gate pushReqOne = .accept "d1" pushPayloadOne ∧
    (∃ row : WebhookDelivery, row.deliveryId = "d1" ∧
      (handleWebhook dbNoWorkspace pushReqOne 100 3).db =
        { dbNoWorkspace with deliveries := dbNoWorkspace.deliveries ++ [row] }) ∧
    handleWebhook
        { (handleWebhook dbNoWorkspace pushReqOne 100 3).db with
          workspaces := (handleWebhook dbNoWorkspace pushReqOne 100 3).db.workspaces ++
            [wsOne] }
        pushReqOne 101 4 =
      ⟨200, .duplicate "d1",
        { (handleWebhook dbNoWorkspace pushReqOne 100 3).db with
          workspaces := (handleWebhook dbNoWorkspace pushReqOne 100 3).db.workspaces ++
            [wsOne] }, false⟩ := by
  have hmain := webhook_workspace_not_found_logs_delivery dbNoWorkspace pushReqOne
    pushReqOne 100 3 101 4 42 "d1" pushPayloadOne [wsOne] (by decide) (by decide) (by decide)
  exact ⟨by decide, by decide, by decide, hmain.1, hmain.2.2⟩

/-! ## Conflict-map key lemmas -/

/-- A key present in `mapSet m k v` was a key of `m` or is `k`. -/
theorem mapSet_keys_mem (m : List (String × Signals)) (k : String) (v : Signals)
    (x : String) (hx : x ∈ (mapSet m k v).map Prod.fst) :
    x ∈ m.map Prod.fst ∨ x = k := by
  unfold mapSet at hx
  split_ifs at hx with hany
  · rcases List.mem_map.mp hx with ⟨e, he, rfl⟩
    rcases List.mem_map.mp he with ⟨e0, he0, rfl⟩
    cases hek : (e0.1 == k) with
    | true =>
      rw [if_pos rfl]
      exact Or.inr rfl
    | false =>
      rw [if_neg Bool.false_ne_true]
      exact Or.inl (List.mem_map_of_mem Prod.fst he0)
  · rw [List.map_append] at hx
    rcases List.mem_append.mp hx with h | h
    · exact Or.inl h
    · rw [List.mem_map] at h
      rcases h with ⟨e, he, rfl⟩
      rw [List.mem_singleton] at he
      rw [he]
      exact Or.inr rfl

/-- `mapSet` keeps the key list duplicate-free. -/
theorem mapSet_keys_nodup (m : List (String × Signals)) (k : String) (v : Signals)
    (h : (m.map Prod.fst).Nodup) : ((mapSet m k v).map Prod.fst).Nodup := by
  unfold mapSet
  split_ifs with hany
  · have : (m.map (fun e => if e.1 == k then (k, v) else e)).map Prod.fst =
        m.map Prod.fst := by
      rw [List.map_map]
      apply List.map_congr_left
      intro e _
      cases hek : (e.1 == k) with
      | true =>
        simp only [Function.comp, hek, if_pos rfl]
        exact (beq_iff_eq.mp hek).symm
      | false => simp only [Function.comp, hek, if_neg Bool.false_ne_true]
    rw [this]
    exact h
  · rw [List.map_append]
    rw [show ((([(k, v)] : List (String × Signals)).map Prod.fst) = [k]) from rfl]
    rw [List.nodup_append]
    refine ⟨h, by simp, ?_⟩
    intro x hxm hxk
    rw [List.mem_singleton] at hxk
    rcases List.mem_map.mp hxm with ⟨e, he, rfl⟩
    have hany2 : m.any (fun e2 => e2.1 == k) = true := by
      rw [List.any_eq_true]
      exact ⟨e, he, beq_iff_eq.mpr hxk⟩
    exact hany hany2

/-- Keys of a `mapSet` fold come from the accumulator or the row keys. -/
theorem fold_mapSet_keys {ρ : Type} (key : ρ → String) (val : List (String × Signals) →
    ρ → Signals) :
    ∀ (rows : List ρ) (m : List (String × Signals)) (x : String),
      x ∈ ((rows.foldl (fun acc r => mapSet acc (key r) (val acc r)) m).map Prod.fst) →
      x ∈ m.map Prod.fst ∨ x ∈ rows.map key := by
  intro rows
  induction rows with
  | nil => intro m x hx; exact Or.inl hx
  | cons r rest ih =>
    intro m x hx
    rw [List.foldl_cons] at hx
    rcases ih (mapSet m (key r) (val m r)) x hx with h | h
    · rcases mapSet_keys_mem m (key r) (val m r) x h with h2 | h2
      · exact Or.inl h2
      · exact Or.inr (by rw [h2]; simp)
    · exact Or.inr (by simp [h])

/-- A `mapSet` fold keeps the key list duplicate-free. -/
theorem fold_mapSet_keys_nodup {ρ : Type} (key : ρ → String) (val : List (String × Signals) →
    ρ → Signals) :
    ∀ (rows : List ρ) (m : List (String × Signals)), (m.map Prod.fst).Nodup →
      ((rows.foldl (fun acc r => mapSet acc (key r) (val acc r)) m).map Prod.fst).Nodup := by
  intro rows
  induction rows with
  | nil => intro m h; exact h
  | cons r rest ih =>
    intro m h
    rw [List.foldl_cons]
    exact ih _ (mapSet_keys_nodup m (key r) (val m r) h)

/-- The conflict map has duplicate-free keys. -/
theorem conflictMap_keys_nodup (bs : List BranchOverlapRow) (ps : List PROverlapRow) :
    ((conflictMap bs ps).map Prod.fst).Nodup := by
  unfold conflictMap
  apply fold_mapSet_keys_nodup (fun r => r.filePath) (fun m r => prMergeSignals m r)
  apply fold_mapSet_keys_nodup (fun r => r.filePath) (fun _ r => branchRowSignals r)
  simp

/-- Every conflict-map key is a branch-overlap or PR-overlap file path. -/
theorem conflictMap_key_source (bs : List BranchOverlapRow) (ps : List PROverlapRow)
    (e : String × Signals) (he : e ∈ conflictMap bs ps) :
    e.1 ∈ bs.map (fun r => r.filePath) ∨ e.1 ∈ ps.map (fun r => r.filePath) := by
  unfold conflictMap at he
  have hx := List.mem_map_of_mem Prod.fst he
  rcases fold_mapSet_keys (fun r => r.filePath) (fun m r => prMergeSignals m r) ps _ e.1
      hx with h | h
  · rcases fold_mapSet_keys (fun r => r.filePath) (fun _ r => branchRowSignals r) bs _ e.1
        h with h2 | h2
    · cases h2
    · exact Or.inl h2
  · exact Or.inr h

/-- A branch-overlap result row's file has ≥ 2 recent non-trunk branches. -/
theorem branchOverlap_path_count (fas : List FileActivity) (wsId : String)
    (now window : Int) (r : BranchOverlapRow)
    (hr : r ∈ branchOverlapQuery fas wsId now window) :
    (recentNonTrunkBranches fas wsId now window r.filePath).length ≥ 2 := by
  unfold branchOverlapQuery at hr
  simp only [List.mem_filter, List.mem_map] at hr
  obtain ⟨⟨p, hp, rfl⟩, hcnt⟩ := hr
  simp only [decide_eq_true_eq] at hcnt
  simpa using hcnt

/-- A PR-overlap result row's file is listed by ≥ 2 distinct open PRs. -/
theorem prOverlap_path_count (prs : List PullRequest) (pfs : List PRFile) (wsId : String)
    (r : PROverlapRow) (hr : r ∈ prOverlapQuery prs pfs wsId) :
    (openPRIdsForFile prs pfs wsId r.filePath).length ≥ 2 := by
  unfold prOverlapQuery at hr
  simp only [List.mem_filter, List.mem_map] at hr
  obtain ⟨⟨p, hp, rfl⟩, hcnt⟩ := hr
  simp only [decide_eq_true_eq] at hcnt
  simpa using hcnt

/-- Every file in the merged conflict map belongs to the conflict set. -/
theorem conflictMap_key_in_set (fas : List FileActivity) (prs : List PullRequest)
    (pfs : List PRFile) (wsId : String) (now window : Int) (e : String × Signals)
    (he : e ∈ conflictMap (branchOverlapQuery fas wsId now window)
      (prOverlapQuery prs pfs wsId)) :
    inConflictSet fas prs pfs wsId now window e.1 = true := by
  unfold inConflictSet
  rw [Bool.or_eq_true]
  rcases conflictMap_key_source _ _ e he with h | h
  · rcases List.mem_map.mp h with ⟨r, hr, hfp⟩
    left
    rw [decide_eq_true_eq, ← hfp]
    exact branchOverlap_path_count fas wsId now window r hr
  · rcases List.mem_map.mp h with ⟨r, hr, hfp⟩
    right
    rw [decide_eq_true_eq, ← hfp]
    exact prOverlap_path_count prs pfs wsId r hr

/-! ## Primary-key discipline is preserved by the upserts -/

/-- `upsertConflictBlocker` preserves distinct blocker ids and freshness. -/
theorem upsertConflictBlocker_idsOk (db : DB) (wsId p : String) (sev : Severity)
    (d : String) (h : blockerIdsOk db) :
    blockerIdsOk (upsertConflictBlocker db wsId p sev d) := by
  obtain ⟨hnd, hlt⟩ := h
  unfold upsertConflictBlocker
  cases hfind : findActiveBlocker db.blockers wsId .FILE_CONFLICT_RISK p with
  | some cur =>
    dsimp only
    split_ifs with hsev
    · constructor
      · dsimp only
        have hids : (db.blockers.map (fun b =>
            if (b.id == cur.id) = true then { b with severity := sev, description := d }
            else b)).map (fun b => b.id) = db.blockers.map (fun b => b.id) := by
          rw [List.map_map]
          apply List.map_congr_left
          intro b _
          dsimp only [Function.comp]
          split_ifs <;> rfl
        rw [hids]
        exact hnd
      · intro b hb
        dsimp only at hb ⊢
        rcases List.mem_map.mp hb with ⟨b0, hb0, rfl⟩
        split_ifs <;> exact hlt b0 hb0
    · exact ⟨hnd, hlt⟩
  | none =>
    constructor
    · dsimp only
      rw [List.map_append, List.nodup_append]
      refine ⟨hnd, by simp, ?_⟩
      intro x hx hx2
      simp only [List.map_cons, List.map_nil, List.mem_singleton] at hx2
      rcases List.mem_map.mp hx with ⟨b0, hb0, rfl⟩
      have := hlt b0 hb0
      omega
    · intro b hb
      dsimp only at hb ⊢
      rcases List.mem_append.mp hb with h | h
      · have := hlt b h
        omega
      · rw [List.mem_singleton] at h
        rw [h]
        show db.nextBlockerId < db.nextBlockerId + 1
        omega

/-- `upsertAll` preserves distinct blocker ids and freshness. -/
theorem upsertAll_idsOk (wsId : String) :
    ∀ (entries : List (String × Signals)) (db : DB), blockerIdsOk db →
      blockerIdsOk (upsertAll db wsId entries) := by
  intro entries
  induction entries with
  | nil => intro db h; exact h
  | cons e rest ih =>
    intro db h
    exact ih _ (upsertConflictBlocker_idsOk db wsId e.1 (classifySeverity e.2)
      (buildDescription e.1 e.2) h)

/-! ## The state after an upsert answers the active-blocker lookup -/

/-- The freshly inserted conflict blocker satisfies its own `activeKey`. -/
theorem activeKey_self (wsId p : String) (idv : Nat) (d : String) (sev : Severity) :
    activeKey wsId .FILE_CONFLICT_RISK p
      { id := idv, workspaceId := wsId, type := .FILE_CONFLICT_RISK, referenceId := p,
        description := d, severity := sev, resolved := false } = true := by
  unfold activeKey
  simp

/-- The severity/description update leaves `activeKey` unchanged. -/
theorem activeKey_update_invariant (wsId : String) (t : BlockerType) (p : String)
    (sev : Severity) (d : String) (cid : Nat) :
    ∀ b : Blocker, activeKey wsId t p
      (if (b.id == cid) = true then { b with severity := sev, description := d } else b) =
      activeKey wsId t p b := by
  intro b
  split_ifs <;> rfl

/-- After `upsertConflictBlocker` the lookup finds an active blocker with the
upserted severity. -/
theorem upsert_establishes (db : DB) (wsId p : String) (sev : Severity) (d : String) :
    ∃ cur, findActiveBlocker (upsertConflictBlocker db wsId p sev d).blockers wsId
      .FILE_CONFLICT_RISK p = some cur ∧ cur.severity = sev := by
  unfold upsertConflictBlocker
  cases hfind : findActiveBlocker db.blockers wsId .FILE_CONFLICT_RISK p with
  | some cur =>
    dsimp only
    split_ifs with hsev
    · refine ⟨{ cur with severity := sev, description := d }, ?_, rfl⟩
      unfold findActiveBlocker at hfind ⊢
      dsimp only
      rw [list_find?_map_comm _ _ (activeKey_update_invariant wsId .FILE_CONFLICT_RISK p
        sev d cur.id) db.blockers, hfind]
      dsimp only [Option.map]
      rw [if_pos (by simp)]
    · exact ⟨cur, hfind, not_ne_iff.mp hsev⟩
  | none =>
    refine ⟨⟨db.nextBlockerId, wsId, .FILE_CONFLICT_RISK, p, d, sev, false⟩, ?_, rfl⟩
    unfold findActiveBlocker at hfind ⊢
    dsimp only
    rw [List.find?_append, hfind]
    rw [List.find?_cons_of_pos _ (activeKey_self wsId p db.nextBlockerId d sev)]
    rfl

/-- Upserting onto an equal-severity active blocker is a no-op. -/
theorem upsert_noop (db : DB) (wsId p : String) (sev : Severity) (d : String)
    (h : ∃ cur, findActiveBlocker db.blockers wsId .FILE_CONFLICT_RISK p = some cur ∧
      cur.severity = sev) :
    upsertConflictBlocker db wsId p sev d = db := by
  obtain ⟨cur, hf, hs⟩ := h
  unfold upsertConflictBlocker
  rw [hf]
  dsimp only
  rw [if_neg (fun hne => hne hs)]

/-- An upsert for a different file path preserves the lookup answer. -/
theorem upsert_preserves_other (db : DB) (wsId pOther p : String) (sevOther : Severity)
    (dOther : String) (sev : Severity) (hwf : blockerIdsOk db) (hne : pOther ≠ p)
    (h : ∃ cur, findActiveBlocker db.blockers wsId .FILE_CONFLICT_RISK p = some cur ∧
      cur.severity = sev) :
    ∃ cur, findActiveBlocker (upsertConflictBlocker db wsId pOther sevOther dOther).blockers
      wsId .FILE_CONFLICT_RISK p = some cur ∧ cur.severity = sev := by
  obtain ⟨cur, hf, hs⟩ := h
  unfold upsertConflictBlocker
  cases hfind : findActiveBlocker db.blockers wsId .FILE_CONFLICT_RISK pOther with
  | some cur0 =>
    dsimp only
    split_ifs with hsev
    · refine ⟨cur, ?_, hs⟩
      unfold findActiveBlocker at hf ⊢
      dsimp only
      rw [list_find?_map_eq _ _ db.blockers ?_, hf]
      intro x hx
      refine ⟨activeKey_update_invariant wsId .FILE_CONFLICT_RISK p sevOther dOther
        cur0.id x, fun hq => ?_⟩
      have hxr : x.referenceId = p := by
        unfold activeKey at hq
        simp only [Bool.and_eq_true, beq_iff_eq] at hq
        exact hq.1.2
      have hq0 := List.find?_some hfind
      have hcur0r : cur0.referenceId = pOther := by
        unfold activeKey at hq0
        simp only [Bool.and_eq_true, beq_iff_eq] at hq0
        exact hq0.1.2
      have hxne : x ≠ cur0 := fun hxe => hne (by rw [← hcur0r, ← hxe, hxr])
      have hmem0 : cur0 ∈ db.blockers := List.mem_of_find?_eq_some hfind
      have hidne : (x.id == cur0.id) = false := by
        cases hid : (x.id == cur0.id) with
        | false => rfl
        | true =>
          exact absurd (List.inj_on_of_nodup_map hwf.1 hx hmem0 (beq_iff_eq.mp hid)) hxne
      rw [hidne, if_neg Bool.false_ne_true]
    · exact ⟨cur, hf, hs⟩
  | none =>
    refine ⟨cur, ?_, hs⟩
    unfold findActiveBlocker at hf ⊢
    dsimp only
    rw [List.find?_append, hf]
    rfl

/-- Stale resolution keeps the lookup answer of an in-conflict file. -/
theorem resolveStale_preserves_prop (db : DB) (wsId : String) (now window : Int)
    (p : String) (sev : Severity)
    (hset : inConflictSet db.fileActivity db.pullRequests db.prFiles wsId now window p =
      true)
    (h : ∃ cur, findActiveBlocker db.blockers wsId .FILE_CONFLICT_RISK p = some cur ∧
      cur.severity = sev) :
    ∃ cur, findActiveBlocker (resolveStaleBlockers db wsId now window).blockers wsId
      .FILE_CONFLICT_RISK p = some cur ∧ cur.severity = sev := by
  obtain ⟨cur, hf, hs⟩ := h
  refine ⟨cur, ?_, hs⟩
  unfold findActiveBlocker at hf ⊢
  unfold resolveStaleBlockers
  dsimp only
  rw [list_find?_map_eq _ _ db.blockers ?_, hf]
  intro b hb
  constructor
  · cases hcd : (b.workspaceId == wsId && b.type == BlockerType.FILE_CONFLICT_RISK &&
        b.resolved == false &&
        !inConflictSet db.fileActivity db.pullRequests db.prFiles wsId now window
          b.referenceId) with
    | false => rw [if_neg Bool.false_ne_true]
    | true =>
      rw [if_pos rfl]
      rw [activeKey_mark_resolved]
      cases hqb : activeKey wsId .FILE_CONFLICT_RISK p b with
      | false => rfl
      | true =>
        have hbr : b.referenceId = p := by
          unfold activeKey at hqb
          simp only [Bool.and_eq_true, beq_iff_eq] at hqb
          exact hqb.1.2
        simp only [Bool.and_eq_true, Bool.not_eq_true', hbr, hset] at hcd
        exact absurd hcd.2 (by simp)
  · intro hq
    have hbr : b.referenceId = p := by
      unfold activeKey at hq
      simp only [Bool.and_eq_true, beq_iff_eq] at hq
      exact hq.1.2
    have hcf : (b.workspaceId == wsId && b.type == BlockerType.FILE_CONFLICT_RISK &&
        b.resolved == false &&
        !inConflictSet db.fileActivity db.pullRequests db.prFiles wsId now window
          b.referenceId) = false := by
      rw [hbr, hset]
      simp
    rw [hcf, if_neg Bool.false_ne_true]

/-- Running the set-based stale resolution twice equals running it once. -/
theorem resolveStale_idempotent (db : DB) (wsId : String) (now window : Int) :
    resolveStaleBlockers (resolveStaleBlockers db wsId now window) wsId now window =
      resolveStaleBlockers db wsId now window := by
  apply DB_eq_of
  · exact ⟨rfl, rfl, rfl, rfl, rfl, rfl, rfl, rfl⟩
  · show (db.blockers.map (fun b =>
        if b.workspaceId == wsId && b.type == BlockerType.FILE_CONFLICT_RISK &&
            b.resolved == false &&
            !inConflictSet db.fileActivity db.pullRequests db.prFiles wsId now window
              b.referenceId
        then { b with resolved := true } else b)).map (fun b =>
        if b.workspaceId == wsId && b.type == BlockerType.FILE_CONFLICT_RISK &&
            b.resolved == false &&
            !inConflictSet db.fileActivity db.pullRequests db.prFiles wsId now window
              b.referenceId
        then { b with resolved := true } else b) =
      db.blockers.map (fun b =>
        if b.workspaceId == wsId && b.type == BlockerType.FILE_CONFLICT_RISK &&
            b.resolved == false &&
            !inConflictSet db.fileActivity db.pullRequests db.prFiles wsId now window
              b.referenceId
        then { b with resolved := true } else b)
    rw [List.map_map]
    apply List.map_congr_left
    intro b _
    dsimp only [Function.comp]
    cases hcd : (b.workspaceId == wsId && b.type == BlockerType.FILE_CONFLICT_RISK &&
        b.resolved == false &&
        !inConflictSet db.fileActivity db.pullRequests db.prFiles wsId now window
          b.referenceId) with
    | true =>
      rw [if_pos rfl]
      have hcf : (({ b with resolved := true } : Blocker).workspaceId == wsId &&
          ({ b with resolved := true } : Blocker).type == BlockerType.FILE_CONFLICT_RISK &&
          ({ b with resolved := true } : Blocker).resolved == false &&
          !inConflictSet db.fileActivity db.pullRequests db.prFiles wsId now window
            ({ b with resolved := true } : Blocker).referenceId) = false := by
        simp
      rw [hcf, if_neg Bool.false_ne_true]
    | false =>
      rw [if_neg Bool.false_ne_true, hcd, if_neg Bool.false_ne_true]
  · rfl

/-- Upserts for other keys keep an established lookup answer. -/
theorem upsertAll_preserves_other (wsId p : String) (sev : Severity) :
    ∀ (entries : List (String × Signals)) (db : DB), blockerIdsOk db →
      p ∉ entries.map Prod.fst →
      (∃ cur, findActiveBlocker db.blockers wsId .FILE_CONFLICT_RISK p = some cur ∧
        cur.severity = sev) →
      ∃ cur, findActiveBlocker (upsertAll db wsId entries).blockers wsId
        .FILE_CONFLICT_RISK p = some cur ∧ cur.severity = sev := by
  intro entries
  induction entries with
  | nil => intro db _ _ h; exact h
  | cons e rest ih =>
    intro db hwf hnm h
    have hne : e.1 ≠ p := by
      intro hx
      exact hnm (by rw [List.map_cons, hx]; exact List.mem_cons_self p _)
    exact ih _ (upsertConflictBlocker_idsOk db wsId e.1 _ _ hwf)
      (fun hm => hnm (by rw [List.map_cons]; exact List.mem_cons_of_mem _ hm))
      (upsert_preserves_other db wsId e.1 p _ _ sev hwf hne h)

/-- After the upsert pass, every merged entry has an active blocker carrying
its classified severity. -/
theorem upsertAll_establishes (wsId : String) :
    ∀ (entries : List (String × Signals)) (db : DB), blockerIdsOk db →
      (entries.map Prod.fst).Nodup →
      ∀ e ∈ entries, ∃ cur, findActiveBlocker (upsertAll db wsId entries).blockers wsId
        .FILE_CONFLICT_RISK e.1 = some cur ∧ cur.severity = classifySeverity e.2 := by
  intro entries
  induction entries with
  | nil => intro db _ _ e he; cases he
  | cons e0 rest ih =>
    intro db hwf hnd e he
    rw [List.map_cons, List.nodup_cons] at hnd
    rcases List.mem_cons.mp he with rfl | hrest
    · exact upsertAll_preserves_other wsId e.1 (classifySeverity e.2) rest _
        (upsertConflictBlocker_idsOk db wsId e.1 _ _ hwf) hnd.1
        (upsert_establishes db wsId e.1 (classifySeverity e.2) (buildDescription e.1 e.2))
    · exact ih _ (upsertConflictBlocker_idsOk db wsId e0.1 _ _ hwf) hnd.2 e hrest

/-- When every entry already has an active blocker of equal severity, the
whole upsert pass is a no-op. -/
theorem upsertAll_noop (wsId : String) :
    ∀ (entries : List (String × Signals)) (db : DB),
      (∀ e ∈ entries, ∃ cur, findActiveBlocker db.blockers wsId .FILE_CONFLICT_RISK e.1 =
        some cur ∧ cur.severity = classifySeverity e.2) →
      upsertAll db wsId entries = db := by
  intro entries
  induction entries with
  | nil => intro db _; rfl
  | cons e0 rest ih =>
    intro db h
    have h0 := upsert_noop db wsId e0.1 (classifySeverity e0.2) (buildDescription e0.1 e0.2)
      (h e0 (List.mem_cons_self e0 rest))
    have hstep : upsertAll db wsId (e0 :: rest) =
        upsertAll (upsertConflictBlocker db wsId e0.1 (classifySeverity e0.2)
          (buildDescription e0.1 e0.2)) wsId rest := rfl
    rw [hstep, h0]
    exact ih db (fun e he => h e (List.mem_cons_of_mem e0 he))

/-! ## C2 — re-running the Conflict Engine -/

/-- `workspaceWindow` depends only on the workspaces table. -/
theorem workspaceWindow_congr (d1 d2 : DB) (wsId : String)
    (h : d1.workspaces = d2.workspaces) :
    workspaceWindow d1 wsId = workspaceWindow d2 wsId := by
  unfold workspaceWindow
  rw [h]

/-- The engine on a non-empty file list is the upsert pass followed by stale
resolution, broadcasting one event per merged entry. -/
theorem runConflictEngine_unfold (db : DB) (wsId : String) (files : List String)
    (now : Int) (hf : files ≠ []) :
    runConflictEngine db wsId files now =
      (resolveStaleBlockers
        (upsertAll db wsId (conflictMap
          (branchOverlapQuery db.fileActivity wsId now (workspaceWindow db wsId))
          (prOverlapQuery db.pullRequests db.prFiles wsId)))
        wsId now (workspaceWindow db wsId),
       (conflictMap
          (branchOverlapQuery db.fileActivity wsId now (workspaceWindow db wsId))
          (prOverlapQuery db.pullRequests db.prFiles wsId)).map (fun e =>
         Event.conflictWarning wsId e.1 e.2.branches (classifySeverity e.2))) := by
  unfold runConflictEngine
  rw [if_neg (by simpa using hf)]

/-- Core of the re-run argument: on the committed state the upsert pass is a
no-op and stale resolution is idempotent. -/
theorem conflictEngine_rerun_core (db : DB) (wsId : String) (now W : Int)
    (hwf : blockerIdsOk db) :
    upsertAll (resolveStaleBlockers (upsertAll db wsId (conflictMap
        (branchOverlapQuery db.fileActivity wsId now W)
        (prOverlapQuery db.pullRequests db.prFiles wsId))) wsId now W) wsId
      (conflictMap (branchOverlapQuery db.fileActivity wsId now W)
        (prOverlapQuery db.pullRequests db.prFiles wsId)) =
      resolveStaleBlockers (upsertAll db wsId (conflictMap
        (branchOverlapQuery db.fileActivity wsId now W)
        (prOverlapQuery db.pullRequests db.prFiles wsId))) wsId now W ∧
    resolveStaleBlockers (resolveStaleBlockers (upsertAll db wsId (conflictMap
        (branchOverlapQuery db.fileActivity wsId now W)
        (prOverlapQuery db.pullRequests db.prFiles wsId))) wsId now W) wsId now W =
      resolveStaleBlockers (upsertAll db wsId (conflictMap
        (branchOverlapQuery db.fileActivity wsId now W)
        (prOverlapQuery db.pullRequests db.prFiles wsId))) wsId now W := by
  constructor
  · apply upsertAll_noop
    intro e he
    have hest := upsertAll_establishes wsId
      (conflictMap (branchOverlapQuery db.fileActivity wsId now W)
        (prOverlapQuery db.pullRequests db.prFiles wsId)) db hwf
      (conflictMap_keys_nodup _ _) e he
    have hfr := upsertAll_frame wsId
      (conflictMap (branchOverlapQuery db.fileActivity wsId now W)
        (prOverlapQuery db.pullRequests db.prFiles wsId)) db
    have hsetU : inConflictSet
        (upsertAll db wsId (conflictMap (branchOverlapQuery db.fileActivity wsId now W)
          (prOverlapQuery db.pullRequests db.prFiles wsId))).fileActivity
        (upsertAll db wsId (conflictMap (branchOverlapQuery db.fileActivity wsId now W)
          (prOverlapQuery db.pullRequests db.prFiles wsId))).pullRequests
        (upsertAll db wsId (conflictMap (branchOverlapQuery db.fileActivity wsId now W)
          (prOverlapQuery db.pullRequests db.prFiles wsId))).prFiles
        wsId now W e.1 = true := by
      rw [hfr.2.2.2.2.1, hfr.2.2.2.2.2.1, hfr.2.2.2.2.2.2.1]
      exact conflictMap_key_in_set db.fileActivity db.pullRequests db.prFiles wsId now W
        e he
    exact resolveStale_preserves_prop _ wsId now W e.1 (classifySeverity e.2) hsetU hest
  · exact resolveStale_idempotent _ wsId now W

/-- **C2 (amended)** For every workspace and non-empty `modifiedFiles` list
(on a blockers table with primary-key discipline), running the Conflict
Engine twice back-to-back with no intervening change leaves the database
unchanged after the second run — no inserted, updated or newly resolved
blockers — and the second run emits exactly the same broadcasts as the
first: one `CONFLICT_WARNING` per file of the current conflict map, rather
than none. -/
theorem conflictEngine_second_run_fixpoint (db : DB) (wsId : String)
    (files : List String) (now : Int) (hf : files ≠ []) (hwf : blockerIdsOk db) :
    (runConflictEngine (runConflictEngine db wsId files now).1 wsId files now).1 =
      (runConflictEngine db wsId files now).1 ∧
    (runConflictEngine (runConflictEngine db wsId files now).1 wsId files now).2 =
      (runConflictEngine db wsId files now).2 := by
  have hu1 := runConflictEngine_unfold db wsId files now hf
  rw [hu1]
  dsimp only
  have hfa : (resolveStaleBlockers (upsertAll db wsId (conflictMap
      (branchOverlapQuery db.fileActivity wsId now (workspaceWindow db wsId))
      (prOverlapQuery db.pullRequests db.prFiles wsId))) wsId now
      (workspaceWindow db wsId)).fileActivity = db.fileActivity :=
    (upsertAll_frame wsId _ db).2.2.2.2.1
  have hpr : (resolveStaleBlockers (upsertAll db wsId (conflictMap
      (branchOverlapQuery db.fileActivity wsId now (workspaceWindow db wsId))
      (prOverlapQuery db.pullRequests db.prFiles wsId))) wsId now
      (workspaceWindow db wsId)).pullRequests = db.pullRequests :=
    (upsertAll_frame wsId _ db).2.2.2.2.2.1
  have hpf : (resolveStaleBlockers (upsertAll db wsId (conflictMap
      (branchOverlapQuery db.fileActivity wsId now (workspaceWindow db wsId))
      (prOverlapQuery db.pullRequests db.prFiles wsId))) wsId now
      (workspaceWindow db wsId)).prFiles = db.prFiles :=
    (upsertAll_frame wsId _ db).2.2.2.2.2.2.1
  have hwsp : (resolveStaleBlockers (upsertAll db wsId (conflictMap
      (branchOverlapQuery db.fileActivity wsId now (workspaceWindow db wsId))
      (prOverlapQuery db.pullRequests db.prFiles wsId))) wsId now
      (workspaceWindow db wsId)).workspaces = db.workspaces :=
    (upsertAll_frame wsId _ db).1
  have hW2 : workspaceWindow (resolveStaleBlockers (upsertAll db wsId (conflictMap
      (branchOverlapQuery db.fileActivity wsId now (workspaceWindow db wsId))
      (prOverlapQuery db.pullRequests db.prFiles wsId))) wsId now
      (workspaceWindow db wsId)) wsId = workspaceWindow db wsId :=
    workspaceWindow_congr _ db wsId hwsp
  have hu2 := runConflictEngine_unfold (resolveStaleBlockers (upsertAll db wsId
      (conflictMap (branchOverlapQuery db.fileActivity wsId now (workspaceWindow db wsId))
        (prOverlapQuery db.pullRequests db.prFiles wsId))) wsId now
      (workspaceWindow db wsId)) wsId files now hf
  rw [hu2]
  dsimp only
  rw [hfa, hpr, hpf, hW2]
  have hcore := conflictEngine_rerun_core db wsId now (workspaceWindow db wsId) hwf
  rw [hcore.1, hcore.2]
  exact ⟨rfl, rfl⟩

/-- **C2 (counterexample to the claim as stated)** On a workspace whose
conflict map is non-empty, the second back-to-back engine run does emit
broadcasts: the claimed "no broadcasts" is false. -/
theorem conflictEngine_second_run_rebroadcasts :
    (runConflictEngine (runConflictEngine dbConflict "w1" ["a.js"] 100).1 "w1" ["a.js"]
      100).2 ≠ [] := by
  decide

/-- Concrete check of `conflictEngine_second_run_fixpoint` on the two-branch
example workspace. -/
theorem conflictEngine_second_run_fixpoint_witness :
    ((["a.js"] : List String) ≠ [] ∧ blockerIdsOk dbConflict) ∧
    (runConflictEngine (runConflictEngine dbConflict "w1" ["a.js"] 100).1 "w1" ["a.js"]
      100).1 = (runConflictEngine dbConflict "w1" ["a.js"] 100).1 := by
  refine ⟨⟨by decide, ?_⟩, ?_⟩
  · unfold blockerIdsOk
    decide
  · exact (conflictEngine_second_run_fixpoint dbConflict "w1" ["a.js"] 100 (by decide)
      (by unfold blockerIdsOk; decide)).1

/-! ## Feature Engine frame and invariance lemmas -/

/-- `updateFeatureStatus` writes only the features table. -/
theorem updateFeatureStatus_frame (d : DB) (fid : String) (st : FeatureStatus) :
    (updateFeatureStatus d fid st).featureDeps = d.featureDeps ∧
    (updateFeatureStatus d fid st).blockers = d.blockers :=
  ⟨rfl, rfl⟩

/-- `setFeatureCompletion` writes only the features table. -/
theorem setFeatureCompletion_frame (d : DB) (fid : String) (pct : Int) :
    (setFeatureCompletion d fid pct).featureDeps = d.featureDeps ∧
    (setFeatureCompletion d fid pct).blockers = d.blockers :=
  ⟨rfl, rfl⟩

/-- The dependency-blocker insert leaves the features tables alone. -/
theorem insertDep_features (d : DB) (wsId fid desc : String) :
    (insertDependencyBlockerIfAbsent d wsId fid desc).features = d.features ∧
    (insertDependencyBlockerIfAbsent d wsId fid desc).featureDeps = d.featureDeps := by
  unfold insertDependencyBlockerIfAbsent
  cases findActiveBlocker d.blockers wsId .DEPENDENCY_BLOCK fid with
  | some cur => exact ⟨rfl, rfl⟩
  | none => exact ⟨rfl, rfl⟩

/-- The dependency-blocker resolve leaves the features tables alone. -/
theorem resolveDep_features (d : DB) (wsId fid : String) :
    (resolveDependencyBlockers d wsId fid).features = d.features ∧
    (resolveDependencyBlockers d wsId fid).featureDeps = d.featureDeps :=
  ⟨rfl, rfl⟩

/-- One feature step never touches the dependency-edge table. -/
theorem featureStep_featureDeps (wsId : String) (d : DB) (g : Feature) :
    (featureStep wsId d g).1.featureDeps = d.featureDeps := by
  unfold featureStep
  dsimp only
  split_ifs with h1 h2
  · rw [(setFeatureCompletion_frame _ _ _).1, (insertDep_features _ _ _ _).2,
      (updateFeatureStatus_frame _ _ _).1]
  · rw [(setFeatureCompletion_frame _ _ _).1, (resolveDep_features _ _ _).2,
      (updateFeatureStatus_frame _ _ _).1]
  · rw [(setFeatureCompletion_frame _ _ _).1]

/-- The loop never touches the dependency-edge table. -/
theorem processFeatures_featureDeps (wsId : String) :
    ∀ (l : List Feature) (d : DB),
      (processFeatures wsId d l).1.featureDeps = d.featureDeps := by
  intro l
  induction l with
  | nil => intro d; rfl
  | cons g rest ih =>
    intro d
    unfold processFeatures
    dsimp only
    rw [ih, featureStep_featureDeps]

/-- `featuresWithId` depends only on the features table. -/
theorem featuresWithId_congr (d1 d2 : DB) (fid : String)
    (h : d1.features = d2.features) : featuresWithId d1 fid = featuresWithId d2 fid := by
  unfold featuresWithId
  rw [h]

/-- `featureSkeleton` depends only on the features table. -/
theorem featureSkeleton_congr (d1 d2 : DB) (h : d1.features = d2.features) :
    featureSkeleton d1 = featureSkeleton d2 := by
  unfold featureSkeleton
  rw [h]

/-- A status update of a different feature id leaves `featuresWithId` alone. -/
theorem featuresWithId_update_other (d : DB) (fidT fid : String) (st : FeatureStatus)
    (hne : fidT ≠ fid) :
    featuresWithId (updateFeatureStatus d fidT st) fid = featuresWithId d fid := by
  unfold featuresWithId updateFeatureStatus
  dsimp only
  apply list_filter_map_eq
  intro x _
  constructor
  · split_ifs <;> rfl
  · intro hq
    rw [if_neg]
    intro hbe
    exact hne (by rw [← beq_iff_eq.mp hbe, beq_iff_eq.mp hq])

/-- A completion update of a different feature id leaves `featuresWithId`
alone. -/
theorem featuresWithId_setpct_other (d : DB) (fidT fid : String) (pct : Int)
    (hne : fidT ≠ fid) :
    featuresWithId (setFeatureCompletion d fidT pct) fid = featuresWithId d fid := by
  unfold featuresWithId setFeatureCompletion
  dsimp only
  apply list_filter_map_eq
  intro x _
  constructor
  · split_ifs <;> rfl
  · intro hq
    rw [if_neg]
    intro hbe
    exact hne (by rw [← beq_iff_eq.mp hbe, beq_iff_eq.mp hq])

/-- A step on a different feature leaves `featuresWithId` alone. -/
theorem featureStep_other_id (wsId : String) (d : DB) (g : Feature) (fid : String)
    (hne : g.id ≠ fid) :
    featuresWithId (featureStep wsId d g).1 fid = featuresWithId d fid := by
  unfold featureStep
  dsimp only
  split_ifs with h1 h2
  · rw [featuresWithId_setpct_other _ _ _ _ hne,
      featuresWithId_congr _ _ fid (insertDep_features _ _ _ _).1,
      featuresWithId_update_other _ _ _ _ hne]
  · rw [featuresWithId_setpct_other _ _ _ _ hne,
      featuresWithId_congr _ _ fid (resolveDep_features _ _ _).1,
      featuresWithId_update_other _ _ _ _ hne]
  · rw [featuresWithId_setpct_other _ _ _ _ hne]

/-- Steps on other features leave `featuresWithId` alone. -/
theorem processFeatures_other_ids (wsId : String) (fid : String) :
    ∀ (l : List Feature) (d : DB), (∀ g ∈ l, g.id ≠ fid) →
      featuresWithId (processFeatures wsId d l).1 fid = featuresWithId d fid := by
  intro l
  induction l with
  | nil => intro d _; rfl
  | cons g rest ih =>
    intro d hne
    unfold processFeatures
    dsimp only
    rw [ih _ (fun x hx => hne x (by simp [hx])), featureStep_other_id wsId d g fid
      (hne g (by simp))]

/-- `any` over a mapped list tests the composed predicate. -/
theorem list_any_map_general {α β : Type} (f : α → β) (p : β → Bool) :
    ∀ l : List α, (l.map f).any p = l.any (fun x => p (f x)) := by
  intro l
  induction l with
  | nil => rfl
  | cons a t ih => rw [List.map_cons, List.any_cons, List.any_cons, ih]

/-- A completion update never changes id or COMPLETE-ness. -/
theorem setFeatureCompletion_skeleton (d : DB) (fid : String) (pct : Int) :
    featureSkeleton (setFeatureCompletion d fid pct) = featureSkeleton d := by
  unfold featureSkeleton setFeatureCompletion
  dsimp only
  rw [List.map_map]
  apply List.map_congr_left
  intro x _
  dsimp only [Function.comp]
  split_ifs <;> rfl

/-- A status update to a non-COMPLETE status on rows that are themselves
non-COMPLETE never changes the skeleton. -/
theorem updateFeatureStatus_skeleton (d : DB) (fid : String) (st : FeatureStatus)
    (hst : (st == FeatureStatus.COMPLETE) = false)
    (hg : ∀ x ∈ d.features, x.id = fid → (x.status == FeatureStatus.COMPLETE) = false) :
    featureSkeleton (updateFeatureStatus d fid st) = featureSkeleton d := by
  unfold featureSkeleton updateFeatureStatus
  dsimp only
  rw [List.map_map]
  apply List.map_congr_left
  intro x hx
  dsimp only [Function.comp]
  cases hbe : (x.id == fid) with
  | true =>
    rw [if_pos rfl]
    dsimp only
    rw [hst, hg x hx (beq_iff_eq.mp hbe)]
  | false => rw [if_neg Bool.false_ne_true]

/-- One feature step on a non-COMPLETE target keeps the skeleton. -/
theorem featureStep_skeleton (wsId : String) (d : DB) (g : Feature)
    (hg : ∀ x ∈ d.features, x.id = g.id → (x.status == FeatureStatus.COMPLETE) = false) :
    featureSkeleton (featureStep wsId d g).1 = featureSkeleton d := by
  unfold featureStep
  dsimp only
  split_ifs with h1 h2
  · rw [setFeatureCompletion_skeleton,
      featureSkeleton_congr _ _ (insertDep_features _ _ _ _).1,
      updateFeatureStatus_skeleton d g.id .BLOCKED (by decide) hg]
  · rw [setFeatureCompletion_skeleton,
      featureSkeleton_congr _ _ (resolveDep_features _ _ _).1,
      updateFeatureStatus_skeleton d g.id .ACTIVE (by decide) hg]
  · rw [setFeatureCompletion_skeleton]

/-- Snapshot features are present, unique, and non-COMPLETE in `db`. -/
theorem snapshot_row_unique (db : DB) (wsId : String)
    (hids : (db.features.map (fun f => f.id)).Nodup) (g : Feature)
    (hg : g ∈ featureSnapshot db wsId) :
    g ∈ db.features ∧ (g.status == FeatureStatus.COMPLETE) = false ∧
    featuresWithId db g.id = [g] := by
  have hmem : g ∈ db.features := List.mem_of_mem_filter hg
  have hpred := List.of_mem_filter hg
  simp only [Bool.and_eq_true, Bool.not_eq_true'] at hpred
  refine ⟨hmem, hpred.2, ?_⟩
  show db.features.filter (fun y => y.id == g.id) = [g]
  exact list_filter_key_single (fun z => z.id) db.features g hids hmem

/-- Through the loop over snapshot features the skeleton never changes. -/
theorem processFeatures_skeleton (db : DB) (wsId : String)
    (hids : (db.features.map (fun f => f.id)).Nodup) :
    ∀ (l : List Feature) (d : DB), (∀ g ∈ l, g ∈ featureSnapshot db wsId) →
      featureSkeleton d = featureSkeleton db →
      featureSkeleton (processFeatures wsId d l).1 = featureSkeleton db := by
  intro l
  induction l with
  | nil => intro d _ hsk; exact hsk
  | cons g rest ih =>
    intro d hsnap hsk
    unfold processFeatures
    dsimp only
    have hgdb := snapshot_row_unique db wsId hids g (hsnap g (by simp))
    have hgrows : ∀ x ∈ d.features, x.id = g.id →
        (x.status == FeatureStatus.COMPLETE) = false := by
      intro x hx hxid
      have hmem : (x.id, (x.status == FeatureStatus.COMPLETE)) ∈ featureSkeleton d :=
        List.mem_map_of_mem _ hx
      rw [hsk] at hmem
      rcases List.mem_map.mp hmem with ⟨y, hy, hye⟩
      have hy1 : y.id = x.id := congrArg Prod.fst hye
      have hy2 : (y.status == FeatureStatus.COMPLETE) =
          (x.status == FeatureStatus.COMPLETE) := congrArg Prod.snd hye
      have hyg : y = g := List.inj_on_of_nodup_map hids hy hgdb.1 (by rw [hy1, hxid])
      rw [← hy2, hyg]
      exact hgdb.2.1
    exact ih _ (fun x hx => hsnap x (by simp [hx]))
      (by rw [featureStep_skeleton wsId d g hgrows, hsk])

/-- Emptiness of the incomplete-dependency query only depends on the edge
table and the skeleton. -/
theorem incompleteDeps_nil_iff (d1 d2 : DB) (hdeps : d1.featureDeps = d2.featureDeps)
    (hsk : featureSkeleton d1 = featureSkeleton d2) (fid : String) :
    (incompleteDeps d1 fid = [] ↔ incompleteDeps d2 fid = []) := by
  have key : ∀ d : DB, (incompleteDeps d fid = [] ↔
      ∀ fd ∈ d.featureDeps.filter (fun fd => fd.featureId == fid),
        (featureSkeleton d).any (fun sk => sk.1 == fd.dependsOnFeatureId && !sk.2) =
          false) := by
    intro d
    unfold incompleteDeps
    rw [List.flatMap_eq_nil_iff]
    constructor
    · intro h fd hfd
      have hnil := h fd hfd
      unfold featureSkeleton
      rw [list_any_map_general, List.any_eq_false]
      intro f2 hf2 hq
      exact List.filter_eq_nil_iff.mp hnil f2 hf2 hq
    · intro h fd hfd
      have hany := h fd hfd
      unfold featureSkeleton at hany
      rw [list_any_map_general, List.any_eq_false] at hany
      rw [List.filter_eq_nil_iff]
      intro f2 hf2 hq
      exact hany f2 hf2 hq
  rw [key d1, key d2, hdeps, hsk]

/-- The Feature Engine's resolve marks every matching blocker resolved. -/
theorem resolveDep_establishes (d : DB) (wsId fid : String) :
    ∀ b ∈ (resolveDependencyBlockers d wsId fid).blockers,
      b.workspaceId = wsId → b.type = .DEPENDENCY_BLOCK → b.referenceId = fid →
      b.resolved = true := by
  intro b hb hws ht hr
  unfold resolveDependencyBlockers at hb
  dsimp only at hb
  rcases List.mem_map.mp hb with ⟨b0, hb0, rfl⟩
  cases hcd : (b0.workspaceId == wsId && b0.type == BlockerType.DEPENDENCY_BLOCK &&
      b0.referenceId == fid) with
  | true => rw [if_pos rfl]
  | false =>
    rw [hcd, if_neg Bool.false_ne_true] at hws ht hr
    rw [beq_iff_eq.mpr hws, beq_iff_eq.mpr ht, beq_iff_eq.mpr hr] at hcd
    simp at hcd

/-- A step on a feature with a different id preserves the everything-resolved
property for `fid`'s dependency blockers. -/
theorem featureStep_preserves_P (wsId : String) (d : DB) (g : Feature) (fid : String)
    (hne : g.id ≠ fid)
    (hP : ∀ b ∈ d.blockers, b.workspaceId = wsId → b.type = .DEPENDENCY_BLOCK →
      b.referenceId = fid → b.resolved = true) :
    ∀ b ∈ (featureStep wsId d g).1.blockers, b.workspaceId = wsId →
      b.type = .DEPENDENCY_BLOCK → b.referenceId = fid → b.resolved = true := by
  unfold featureStep
  dsimp only
  split_ifs with h1 h2
  · intro b hb hws ht hr
    rw [(setFeatureCompletion_frame _ _ _).2] at hb
    unfold insertDependencyBlockerIfAbsent at hb
    cases hf : findActiveBlocker (updateFeatureStatus d g.id .BLOCKED).blockers wsId
        .DEPENDENCY_BLOCK g.id with
    | some cur =>
      rw [hf] at hb
      dsimp only at hb
      rw [(updateFeatureStatus_frame _ _ _).2] at hb
      exact hP b hb hws ht hr
    | none =>
      rw [hf] at hb
      dsimp only at hb
      rw [(updateFeatureStatus_frame _ _ _).2] at hb
      rcases List.mem_append.mp hb with h | h
      · exact hP b h hws ht hr
      · rw [List.mem_singleton] at h
        subst h
        exact absurd hr.symm (Ne.symm hne)
  · intro b hb hws ht hr
    rw [(setFeatureCompletion_frame _ _ _).2] at hb
    unfold resolveDependencyBlockers at hb
    dsimp only at hb
    rcases List.mem_map.mp hb with ⟨b0, hb0, rfl⟩
    rw [(updateFeatureStatus_frame _ _ _).2] at hb0
    cases hcd : (b0.workspaceId == wsId && b0.type == BlockerType.DEPENDENCY_BLOCK &&
        b0.referenceId == g.id) with
    | true => rw [if_pos rfl]
    | false =>
      rw [hcd, if_neg Bool.false_ne_true] at hws ht hr
      rw [if_neg Bool.false_ne_true]
      exact hP b0 hb0 hws ht hr
  · intro b hb
    rw [(setFeatureCompletion_frame _ _ _).2] at hb
    exact hP b hb

/-- Steps on other features preserve the everything-resolved property. -/
theorem processFeatures_preserves_P (wsId fid : String) :
    ∀ (l : List Feature) (d : DB), (∀ g ∈ l, g.id ≠ fid) →
      (∀ b ∈ d.blockers, b.workspaceId = wsId → b.type = .DEPENDENCY_BLOCK →
        b.referenceId = fid → b.resolved = true) →
      ∀ b ∈ (processFeatures wsId d l).1.blockers, b.workspaceId = wsId →
        b.type = .DEPENDENCY_BLOCK → b.referenceId = fid → b.resolved = true := by
  intro l
  induction l with
  | nil => intro d _ hP; exact hP
  | cons g rest ih =>
    intro d hne hP
    unfold processFeatures
    dsimp only
    exact ih _ (fun x hx => hne x (by simp [hx]))
      (featureStep_preserves_P wsId d g fid (hne g (by simp)) hP)

/-- A status update of `fid` itself maps its (unique) row. -/
theorem featuresWithId_update_self (d : DB) (fid : String) (st : FeatureStatus) :
    featuresWithId (updateFeatureStatus d fid st) fid =
      (featuresWithId d fid).map (fun x => { x with status := st }) := by
  unfold featuresWithId updateFeatureStatus
  dsimp only
  rw [list_filter_map_comm _ _ ?_ d.features]
  · apply List.map_congr_left
    intro x hx
    rw [if_pos (List.of_mem_filter hx)]
  · intro x
    split_ifs <;> rfl

/-- A completion update of `fid` itself maps its (unique) row. -/
theorem featuresWithId_setpct_self (d : DB) (fid : String) (pct : Int) :
    featuresWithId (setFeatureCompletion d fid pct) fid =
      (featuresWithId d fid).map (fun x => { x with completionPercentage := pct }) := by
  unfold featuresWithId setFeatureCompletion
  dsimp only
  rw [list_filter_map_comm _ _ ?_ d.features]
  · apply List.map_congr_left
    intro x hx
    rw [if_pos (List.of_mem_filter hx)]
  · intro x
    split_ifs <;> rfl

/-- Outcome of the loop body on a feature whose row is unique: block when an
incomplete dependency exists, unblock (resolving the blockers) when BLOCKED
with none, keep the status otherwise; completion is bumped in all cases. -/
theorem featureStep_self (wsId : String) (d : DB) (f : Feature)
    (hone : featuresWithId d f.id = [f]) :
    (incompleteDeps d f.id ≠ [] →
      featuresWithId (featureStep wsId d f).1 f.id =
        [{ f with status := .BLOCKED, completionPercentage := min 95 (f.completionPercentage + 5) }]) ∧
    (incompleteDeps d f.id = [] → f.status = .BLOCKED →
      featuresWithId (featureStep wsId d f).1 f.id =
        [{ f with status := .ACTIVE, completionPercentage := min 95 (f.completionPercentage + 5) }] ∧
      ∀ b ∈ (featureStep wsId d f).1.blockers, b.workspaceId = wsId →
        b.type = .DEPENDENCY_BLOCK → b.referenceId = f.id → b.resolved = true) ∧
    (incompleteDeps d f.id = [] → f.status ≠ .BLOCKED →
      featuresWithId (featureStep wsId d f).1 f.id =
        [{ f with completionPercentage := min 95 (f.completionPercentage + 5) }]) := by
  unfold featureStep
  dsimp only
  split_ifs with h1 h2
  · refine ⟨fun _ => ?_, fun h0 _ => absurd h0 (by intro h0; rw [h0] at h1; simp at h1),
      fun h0 _ => absurd h0 (by intro h0; rw [h0] at h1; simp at h1)⟩
    rw [featuresWithId_setpct_self,
      featuresWithId_congr _ _ f.id (insertDep_features _ _ _ _).1,
      featuresWithId_update_self, hone]
    rfl
  · refine ⟨fun hne => absurd (by rwa [← List.length_pos_iff_ne_nil] at hne : _ ) h1,
      fun _ _ => ⟨?_, ?_⟩, fun _ hnb => absurd (beq_iff_eq.mp h2) hnb⟩
    · rw [featuresWithId_setpct_self,
        featuresWithId_congr _ _ f.id (resolveDep_features _ _ _).1,
        featuresWithId_update_self, hone]
      rfl
    · intro b hb
      rw [(setFeatureCompletion_frame _ _ _).2] at hb
      exact resolveDep_establishes _ wsId f.id b hb
  · refine ⟨fun hne => absurd (by rwa [← List.length_pos_iff_ne_nil] at hne : _) h1,
      fun _ hbl => absurd (beq_iff_eq.mpr hbl) (by simpa using h2), fun _ _ => ?_⟩
    rw [featuresWithId_setpct_self, hone]
    rfl

/-- The loop over an appended list is the two loops in sequence. -/
theorem processFeatures_append (wsId : String) :
    ∀ (l1 l2 : List Feature) (d : DB),
      (processFeatures wsId d (l1 ++ l2)).1 =
        (processFeatures wsId (processFeatures wsId d l1).1 l2).1 := by
  intro l1
  induction l1 with
  | nil => intro l2 d; rfl
  | cons g rest ih => intro l2 d; exact ih l2 (featureStep wsId d g).1

/-! ## C5 — feature status after a Feature Engine run -/

/-- **C5** After a Feature Engine run, every observed (non-COMPLETE at load)
feature is BLOCKED exactly when it had an incomplete upstream dependency at
evaluation time (an invariant of the run, equal to its value at load); in
particular a BLOCKED feature whose upstream dependencies are all COMPLETE is
transitioned to ACTIVE and its unresolved DEPENDENCY_BLOCK blocker
(`referenceId` = feature id) is resolved. Feature ids are assumed distinct
(the primary key of the features table). -/
theorem featureEngine_blocked_iff_incomplete_dep (db : DB) (wsId : String)
    (files : List String) (now : Int) (hf : files ≠ [])
    (hids : (db.features.map (fun f => f.id)).Nodup) :
    ∀ f ∈ featureSnapshot db wsId,
      (∀ f2 ∈ (runFeatureEngine db wsId files now).1.features, f2.id = f.id →
        ((f2.status = .BLOCKED ↔ incompleteDeps db f.id ≠ []) ∧
         (f.status = .BLOCKED → incompleteDeps db f.id = [] → f2.status = .ACTIVE))) ∧
      (f.status = .BLOCKED → incompleteDeps db f.id = [] →
        ∀ b ∈ (runFeatureEngine db wsId files now).1.blockers,
          b.workspaceId = wsId → b.type = .DEPENDENCY_BLOCK → b.referenceId = f.id →
            b.resolved = true) := by
  intro f hf_mem
  have hrun : (runFeatureEngine db wsId files now).1.features =
      (processFeatures wsId db (featureSnapshot db wsId)).1.features ∧
      (runFeatureEngine db wsId files now).1.blockers =
      (processFeatures wsId db (featureSnapshot db wsId)).1.blockers := by
    unfold runFeatureEngine
    rw [if_neg (by simpa using hf)]
    exact ⟨rfl, rfl⟩
  obtain ⟨s1, s2, hsplit⟩ := List.append_of_mem hf_mem
  have hsnapNodup : ((featureSnapshot db wsId).map (fun g => g.id)).Nodup :=
    List.Nodup.sublist (List.Sublist.map _ (List.filter_sublist _)) hids
  rw [hsplit, List.map_append, List.map_cons, List.nodup_append] at hsnapNodup
  have hpre_ne : ∀ g ∈ s1, g.id ≠ f.id := by
    intro g hg he
    exact hsnapNodup.2.2 (List.mem_map.mpr ⟨g, hg, rfl⟩) (by rw [he]; simp)
  have hpost_ne : ∀ g ∈ s2, g.id ≠ f.id := by
    intro g hg he
    exact (List.nodup_cons.mp hsnapNodup.2.1).1 (by rw [← he]; exact List.mem_map.mpr ⟨g, hg, rfl⟩)
  have hallsnap : ∀ g ∈ s1, g ∈ featureSnapshot db wsId := by
    intro g hg
    rw [hsplit]
    exact List.mem_append.mpr (Or.inl hg)
  have hproc : (processFeatures wsId db (featureSnapshot db wsId)).1 =
      (processFeatures wsId (featureStep wsId (processFeatures wsId db s1).1 f).1 s2).1 := by
    rw [hsplit, processFeatures_append]
    rfl
  have hskpre : featureSkeleton (processFeatures wsId db s1).1 = featureSkeleton db :=
    processFeatures_skeleton db wsId hids s1 db hallsnap rfl
  have hdepspre : (processFeatures wsId db s1).1.featureDeps = db.featureDeps :=
    processFeatures_featureDeps wsId s1 db
  have hrow := snapshot_row_unique db wsId hids f hf_mem
  have honepre : featuresWithId (processFeatures wsId db s1).1 f.id = [f] := by
    rw [processFeatures_other_ids wsId f.id s1 db hpre_ne]
    exact hrow.2.2
  have hdeps_iff : (incompleteDeps (processFeatures wsId db s1).1 f.id = [] ↔
      incompleteDeps db f.id = []) :=
    incompleteDeps_nil_iff _ db hdepspre hskpre f.id
  have hstep := featureStep_self wsId (processFeatures wsId db s1).1 f honepre
  have hpost_pres : ∀ dmid : DB, featuresWithId (processFeatures wsId dmid s2).1 f.id =
      featuresWithId dmid f.id :=
    fun dmid => processFeatures_other_ids wsId f.id s2 dmid hpost_ne
  have hext : ∀ rec : Feature,
      featuresWithId (featureStep wsId (processFeatures wsId db s1).1 f).1 f.id = [rec] →
      ∀ f2 ∈ (runFeatureEngine db wsId files now).1.features, f2.id = f.id → f2 = rec := by
    intro rec hrec f2 hf2mem hf2id
    have hf2 : f2 ∈ featuresWithId (runFeatureEngine db wsId files now).1 f.id :=
      List.mem_filter.mpr ⟨hf2mem, beq_iff_eq.mpr hf2id⟩
    have hfin : featuresWithId (runFeatureEngine db wsId files now).1 f.id = [rec] := by
      rw [featuresWithId_congr _ _ f.id hrun.1, hproc, hpost_pres _, hrec]
    rw [hfin, List.mem_singleton] at hf2
    exact hf2
  by_cases hdep : incompleteDeps db f.id = []
  · by_cases hbl : f.status = .BLOCKED
    · have hmid := hstep.2.1 (hdeps_iff.mpr hdep) hbl
      constructor
      · intro f2 hf2mem hf2id
        have hf2eq := hext _ hmid.1 f2 hf2mem hf2id
        subst hf2eq
        exact ⟨iff_of_false (by simp) (fun hne => hne hdep), fun _ _ => by simp⟩
      · intro _ _ b hb hws ht hr
        rw [hrun.2, hproc] at hb
        exact processFeatures_preserves_P wsId f.id s2 _ hpost_ne hmid.2 b hb hws ht hr
    · have hmid := hstep.2.2 (hdeps_iff.mpr hdep) hbl
      refine ⟨?_, fun hblf _ => absurd hblf hbl⟩
      intro f2 hf2mem hf2id
      have hf2eq := hext _ hmid f2 hf2mem hf2id
      subst hf2eq
      exact ⟨iff_of_false hbl (fun hne => hne hdep), fun hblf _ => absurd hblf hbl⟩
  · have hmid := hstep.1 (fun h0 => hdep (hdeps_iff.mp h0))
    refine ⟨?_, fun _ h0 => absurd h0 hdep⟩
    intro f2 hf2mem hf2id
    have hf2eq := hext _ hmid f2 hf2mem hf2id
    subst hf2eq
    exact ⟨iff_of_true rfl hdep, fun _ h0 => absurd h0 hdep⟩

/-- Concrete check of `featureEngine_blocked_iff_incomplete_dep` on
`dbFeatures`: the BLOCKED `Profile` whose dependency `Auth` is COMPLETE is
unblocked and its DEPENDENCY_BLOCK blocker is resolved. -/
theorem featureEngine_blocked_iff_incomplete_dep_witness :
    ((["a.js"] : List String) ≠ [] ∧
      (dbFeatures.features.map (fun f => f.id)).Nodup ∧
      featProfile ∈ featureSnapshot dbFeatures "w1" ∧
      featProfile.status = .BLOCKED ∧ incompleteDeps dbFeatures "f2" = []) ∧
    (∀ f2 ∈ (runFeatureEngine dbFeatures "w1" ["a.js"] 100).1.features, f2.id = "f2" →
      f2.status = .ACTIVE) ∧
    (∀ b ∈ (runFeatureEngine dbFeatures "w1" ["a.js"] 100).1.blockers,
      b.workspaceId = "w1" → b.type = .DEPENDENCY_BLOCK → b.referenceId = "f2" →
        b.resolved = true) := by
  have hmain := featureEngine_blocked_iff_incomplete_dep dbFeatures "w1" ["a.js"] 100
    (by decide) (by decide) featProfile (by decide)
  refine ⟨⟨by decide, by decide, by decide, by decide, by decide⟩, ?_, ?_⟩
  · intro f2 hf2 hid
    exact (hmain.1 f2 hf2 hid).2 (by decide) (by decide)
  · exact hmain.2 (by decide) (by decide)
